import Mathlib

/-!
Shallow embedding of the event-driven gate-level logic simulator
(`src/src.py`): logic primitives over 2/3-valued logic, the `Gate` and
`Circuit` data model, and the five scheduler classes
(`TwoListSimulator`, `SingleListEventSimulator`, `SingleListGateSimulator`,
`ZeroDelaySimulator`, `ThreadedSimulator`).

Python `while` loops whose queues can grow are embedded as fuelled
recursions returning `Option`: `none` means the fuel bound was reached
before the loop exited, so "the call terminates" corresponds to
"`some` for some fuel".  Python lists are Lean lists, dictionaries are
association lists, and out-of-range indexing (which raises in Python) is
totalised with the sentinel value `Logic.X`.
-/

set_option maxHeartbeats 1000000

namespace EventSim

/-- Logic values `'0'`, `'1'`, `'U'` (unknown), `'X'` (conflict). -/
inductive Logic where
  | zero
  | one
  | U
  | X
deriving DecidableEq, Repr, Inhabited

/-- The per-simulator logic model selector: `'2val'` or `'3val'`. -/
inductive LogicModel where
  | twoVal
  | threeVal
deriving DecidableEq, Repr, Inhabited

/-- Association-list lookup (Python `dict` access returning `None` when absent). -/
def alist_get {α β : Type} [DecidableEq α] (l : List (α × β)) (k : α) : Option β :=
  match l with
  | [] => none
  | (a, b) :: rest => if a = k then some b else alist_get rest k

/-- Python `dict.get(k, default)`. -/
def alist_getD {α β : Type} [DecidableEq α] (l : List (α × β)) (k : α) (d : β) : β :=
  (alist_get l k).getD d

/-- `logic_and`: walks the input list; returns `'0'` at the first `'0'` seen,
`'U'` at the first `'U'` seen in 3-valued mode, else `'1'`. -/
def logic_and (inputs : List Nat) (values : List Logic) (m : LogicModel) : Logic :=
  match inputs with
  | [] => .one
  | i :: rest =>
    let val := values.getD i .X
    if val = .zero then .zero
    else if m = .threeVal ∧ val = .U then .U
    else logic_and rest values m

/-- `logic_or`: walks the input list; returns `'1'` at the first `'1'` seen,
`'U'` at the first `'U'` seen in 3-valued mode, else `'0'`. -/
def logic_or (inputs : List Nat) (values : List Logic) (m : LogicModel) : Logic :=
  match inputs with
  | [] => .zero
  | i :: rest =>
    let val := values.getD i .X
    if val = .one then .one
    else if m = .threeVal ∧ val = .U then .U
    else logic_or rest values m

/-- `logic_not_single`: inverter on a value. -/
def logic_not_single (val : Logic) (m : LogicModel) : Logic :=
  if m = .threeVal ∧ val = .U then .U
  else if val = .zero then .one
  else if val = .one then .zero
  else .X

/-- `logic_not`: inverter reading one net. -/
def logic_not (input_idx : Nat) (values : List Logic) (m : LogicModel) : Logic :=
  logic_not_single (values.getD input_idx .X) m

/-- `logic_nand`. -/
def logic_nand (inputs : List Nat) (values : List Logic) (m : LogicModel) : Logic :=
  let andv := logic_and inputs values m
  if andv = .U then .U else logic_not_single andv m

/-- `logic_nor`. -/
def logic_nor (inputs : List Nat) (values : List Logic) (m : LogicModel) : Logic :=
  let orv := logic_or inputs values m
  if orv = .U then .U else logic_not_single orv m

/-- The accumulator loop of `logic_xor`: counts `'1'`s, aborting with `'U'`
at the first `'U'` regardless of logic model. -/
def logic_xor_go (values : List Logic) (inputs : List Nat) (ones : Nat) : Logic :=
  match inputs with
  | [] => if ones % 2 = 1 then .one else .zero
  | i :: rest =>
    let val := values.getD i .X
    if val = .U then .U
    else if val = .one then logic_xor_go values rest (ones + 1)
    else logic_xor_go values rest ones

/-- `logic_xor` (the `logic_model` parameter is unused in the source too). -/
def logic_xor (inputs : List Nat) (values : List Logic) (_m : LogicModel) : Logic :=
  logic_xor_go values inputs 0

/-- `logic_xnor`. -/
def logic_xnor (inputs : List Nat) (values : List Logic) (m : LogicModel) : Logic :=
  let xorv := logic_xor inputs values m
  if xorv = .U then .U else logic_not_single xorv m

/-- The key set of the `GATE_FUNCS` dispatch table. -/
def GATE_FUNCS_KEYS : List String :=
  ["AND", "OR", "NOT", "NAND", "NOR", "XOR", "XNOR"]

/-- `gate_type.upper()` (character-by-character upper-casing). -/
def str_upper (s : String) : String := ⟨s.data.map Char.toUpper⟩

/-- A logic gate (the `Gate` class).  `type` is stored already upper-cased,
as `Gate.__init__` does. -/
structure Gate where
  id : Nat
  type : String
  inputs : List Nat
  output : Nat
deriving DecidableEq, Repr, Inhabited

/-- `Gate.simulate`: dispatch on the gate type; `NOT` reads `inputs[0]`.
An empty `NOT` input list or an unknown type (both of which raise in
Python) yield the sentinel `X`. -/
def Gate.simulate (g : Gate) (net_values : List Logic) (m : LogicModel) : Logic :=
  if g.type = "NOT" then
    match g.inputs with
    | i :: _ => logic_not i net_values m
    | [] => .X
  else if g.type = "AND" then logic_and g.inputs net_values m
  else if g.type = "OR" then logic_or g.inputs net_values m
  else if g.type = "NAND" then logic_nand g.inputs net_values m
  else if g.type = "NOR" then logic_nor g.inputs net_values m
  else if g.type = "XOR" then logic_xor g.inputs net_values m
  else if g.type = "XNOR" then logic_xnor g.inputs net_values m
  else .X

/-- The netlist (the `Circuit` class).  `fanout` is the `defaultdict(list)`
mapping a net id to the gates reading it. -/
structure Circuit where
  net_id_map : List (String × Nat)
  net_names : List String
  next_net_id : Nat
  gates : List Gate
  primary_inputs : List Nat
  primary_outputs : List Nat
  fanout : List (Nat × List Gate)
deriving DecidableEq, Repr, Inhabited

/-- `Circuit()` constructor. -/
def Circuit.empty : Circuit :=
  { net_id_map := [], net_names := [], next_net_id := 0, gates := [],
    primary_inputs := [], primary_outputs := [], fanout := [] }

/-- Read the fanout list of a net (`defaultdict` read). -/
def fanout_get (f : List (Nat × List Gate)) (n : Nat) : List Gate :=
  alist_getD f n []

/-- `self.fanout[net].append(gate)` including the `defaultdict` entry creation. -/
def fanout_add (f : List (Nat × List Gate)) (n : Nat) (g : Gate) :
    List (Nat × List Gate) :=
  match f with
  | [] => [(n, [g])]
  | (k, gs) :: rest =>
    if k = n then (k, gs ++ [g]) :: rest else (k, gs) :: fanout_add rest n g

/-- `Circuit.add_net`: create the named net if missing, return its id. -/
def Circuit.add_net (c : Circuit) (name : String) : Circuit × Nat :=
  match alist_get c.net_id_map name with
  | some id => (c, id)
  | none =>
    ({ c with
        net_id_map := c.net_id_map ++ [(name, c.next_net_id)],
        net_names := c.net_names ++ [name],
        next_net_id := c.next_net_id + 1 },
     c.next_net_id)

/-- `[self.add_net(n) for n in names]`. -/
def Circuit.add_net_list (c : Circuit) (names : List String) : Circuit × List Nat :=
  match names with
  | [] => (c, [])
  | n :: rest =>
    let (c1, i) := c.add_net n
    let (c2, is) := c1.add_net_list rest
    (c2, i :: is)

/-- `Circuit.add_gate`: create missing nets, then construct the gate
(`Gate.__init__` raises `ValueError` on an unsupported type — modelled by the
`Except.error` branch, in which the mutated circuit is kept but the gate is
neither appended to `gates` nor indexed in `fanout`). -/
def Circuit.add_gate (c : Circuit) (gate_type : String) (input_names : List String)
    (output_name : String) : Circuit × Except String Gate :=
  let p1 := c.add_net_list input_names
  let c1 := p1.1
  let input_ids := p1.2
  let p2 := c1.add_net output_name
  let c2 := p2.1
  let out_id := p2.2
  let t := str_upper gate_type
  if t ∈ GATE_FUNCS_KEYS then
    let gate : Gate := ⟨c2.gates.length, t, input_ids, out_id⟩
    ({ c2 with
        gates := c2.gates ++ [gate],
        fanout := input_ids.foldl (fun f net => fanout_add f net gate) c2.fanout },
     .ok gate)
  else
    (c2, .error ("Unsupported gate type: " ++ t))

/-- `add_gate` ignoring the returned gate (convenience for building concrete
circuits). -/
def Circuit.add_gate_d (c : Circuit) (gate_type : String) (input_names : List String)
    (output_name : String) : Circuit :=
  (c.add_gate gate_type input_names output_name).1

/-- `Circuit.set_primary_inputs`. -/
def Circuit.set_primary_inputs (c : Circuit) (input_names : List String) : Circuit :=
  let p := c.add_net_list input_names
  { p.1 with primary_inputs := p.2 }

/-- `Circuit.set_primary_outputs`. -/
def Circuit.set_primary_outputs (c : Circuit) (output_names : List String) : Circuit :=
  let p := c.add_net_list output_names
  { p.1 with primary_outputs := p.2 }

/-- `Circuit.get_gate_by_output`. -/
def Circuit.get_gate_by_output (c : Circuit) (net_id : Nat) : List Gate :=
  c.gates.filter (fun g => g.output = net_id)

/-! ## Shared simulator pieces -/

/-- A pending net-value change (`{'net': ..., 'value': ...}`). -/
structure Event where
  net : Nat
  value : Logic
deriving DecidableEq, Repr

/-- `input_vector.get(net, default)`: an input vector is a map from net id
to logic value. -/
def vec_get (vec : List (Nat × Logic)) (net : Nat) (default : Logic) : Logic :=
  alist_getD vec net default

/-- `{nid: self.net_values[nid] for nid in self.circuit.primary_outputs}`. -/
def output_snapshot (po : List Nat) (values : List Logic) : List (Nat × Logic) :=
  po.map (fun nid => (nid, values.getD nid .X))

/-- Hazard classification tags. -/
inductive HazardKind where
  | static
  | dynamic
deriving DecidableEq, Repr

/-- The hazard-detection pass shared verbatim by the Two-List, both
Single-List and the Threaded simulators: every net whose `change_count`
exceeds 1 is flagged, `static` when its final value equals the value it
held when the call began, else `dynamic`. -/
def hazard_scan (num_nets : Nat) (old_values new_values : List Logic)
    (change_count : List Nat) : List (Nat × HazardKind) :=
  (List.range num_nets).filterMap (fun net =>
    if change_count.getD net 0 > 1 then
      some (net,
        if old_values.getD net .X = new_values.getD net .X then HazardKind.static
        else HazardKind.dynamic)
    else none)

/-- `[0]*self.num_nets` / the per-model initial net values
`[LOGIC_U if logic_model=='3val' else LOGIC_ZERO for _ in range(num)]`. -/
def init_net_values (m : LogicModel) (num : Nat) : List Logic :=
  List.replicate num (if m = .threeVal then Logic.U else Logic.zero)

/-- The initial mark flags: all `True` in 2-valued mode, all `False`
in 3-valued mode. -/
def init_net_mark (m : LogicModel) (num : Nat) : List Bool :=
  List.replicate num (if m = .twoVal then true else false)

/-! ## TwoListSimulator -/

/-- State of a `TwoListSimulator` instance. -/
structure TwoListSimulator where
  circuit : Circuit
  logic_model : LogicModel
  num_nets : Nat
  net_values : List Logic
  net_mark : List Bool
  gate_sim_count : Nat
  output_log : List (List (Nat × Logic))
  intermediate_log : List (Nat × List (Nat × Logic))
deriving DecidableEq, Repr

/-- `TwoListSimulator.__init__`. -/
def TwoListSimulator.init (circuit : Circuit) (m : LogicModel) : TwoListSimulator :=
  { circuit := circuit, logic_model := m, num_nets := circuit.next_net_id,
    net_values := init_net_values m circuit.next_net_id,
    net_mark := init_net_mark m circuit.next_net_id,
    gate_sim_count := 0, output_log := [], intermediate_log := [] }

/-- The input-scanning loop at the head of `TwoListSimulator.simulate_vector`
(also used verbatim by `SingleListEventSimulator`): queue an event for each
primary input whose value changed — or, in 2-valued mode, whose mark flag is
set, clearing the flag. -/
def tl_queue_inputs (pis : List Nat) (m : LogicModel) (vec : List (Nat × Logic))
    (values : List Logic) (marks : List Bool) : List Event × List Bool :=
  match pis with
  | [] => ([], marks)
  | net :: rest =>
    let val := vec_get vec net (values.getD net .X)
    if m = .twoVal then
      if val ≠ values.getD net .X ∨ marks.getD net false then
        let p := tl_queue_inputs rest m vec values (marks.set net false)
        (⟨net, val⟩ :: p.1, p.2)
      else tl_queue_inputs rest m vec values marks
    else
      if val ≠ values.getD net .X then
        let p := tl_queue_inputs rest m vec values marks
        (⟨net, val⟩ :: p.1, p.2)
      else tl_queue_inputs rest m vec values marks

/-- The event-drain phase of the Two-List outer loop: pop every pending
event, commit changed values (counting changes), and append each fanout
gate to the gate queue unless already present. -/
def tl_drain_events (fanout : List (Nat × List Gate)) (events : List Event)
    (values : List Logic) (counts : List Nat) (gq : List Gate) :
    List Logic × List Nat × List Gate :=
  match events with
  | [] => (values, counts, gq)
  | ev :: rest =>
    let p :=
      if ev.value ≠ values.getD ev.net .X then
        (values.set ev.net ev.value, counts.set ev.net (counts.getD ev.net 0 + 1))
      else (values, counts)
    let gq := (fanout_get fanout ev.net).foldl
      (fun q g => if g ∈ q then q else q ++ [g]) gq
    tl_drain_events fanout rest p.1 p.2 gq

/-- The gate-drain phase of the Two-List outer loop: simulate every queued
gate against the (fixed) current values, counting simulations, and queue an
event for each output that would change. -/
def tl_drain_gates (gates : List Gate) (values : List Logic) (m : LogicModel)
    (sim_count : Nat) (eq : List Event) : Nat × List Event :=
  match gates with
  | [] => (sim_count, eq)
  | g :: rest =>
    let new_val := g.simulate values m
    let eq :=
      if new_val ≠ values.getD g.output .X then eq ++ [⟨g.output, new_val⟩] else eq
    tl_drain_gates rest values m (sim_count + 1) eq

/-- The fuelled outer `while event_queue:` loop of
`TwoListSimulator.simulate_vector`. -/
def tl_loop (circ : Circuit) (m : LogicModel) (fuel : Nat) (eq : List Event)
    (values : List Logic) (counts : List Nat) (sim_count time_unit : Nat)
    (ilog : List (Nat × List (Nat × Logic))) :
    Option (List Logic × List Nat × Nat × Nat × List (Nat × List (Nat × Logic))) :=
  match fuel with
  | 0 => none
  | fuel + 1 =>
    if eq = [] then some (values, counts, sim_count, time_unit, ilog)
    else
      let d := tl_drain_events circ.fanout eq values counts []
      let values := d.1
      let counts := d.2.1
      let gq := d.2.2
      if gq = [] then
        tl_loop circ m fuel [] values counts sim_count time_unit ilog
      else
        let ilog := ilog ++ [(time_unit, output_snapshot circ.primary_outputs values)]
        let p := tl_drain_gates gq values m sim_count []
        tl_loop circ m fuel p.2 values counts p.1 (time_unit + 1) ilog

/-- `TwoListSimulator.simulate_vector` (fuelled).  Returns the updated
simulator, the hazards list, and the per-call `change_count` array. -/
def TwoListSimulator.simulate_vector (fuel : Nat) (s : TwoListSimulator)
    (vec : List (Nat × Logic)) :
    Option (TwoListSimulator × List (Nat × HazardKind) × List Nat) :=
  let old_values := s.net_values
  let counts : List Nat := List.replicate s.num_nets 0
  let q := tl_queue_inputs s.circuit.primary_inputs s.logic_model vec s.net_values s.net_mark
  match tl_loop s.circuit s.logic_model fuel q.1 s.net_values counts 0 0 [] with
  | none => none
  | some (values, counts, sim_count, _time_unit, ilog) =>
    some ({ s with
              net_values := values,
              net_mark := q.2,
              gate_sim_count := s.gate_sim_count + sim_count,
              output_log := s.output_log ++ [output_snapshot s.circuit.primary_outputs values],
              intermediate_log := s.intermediate_log ++ ilog },
          hazard_scan s.num_nets old_values values counts,
          counts)

/-! ## SingleListEventSimulator -/

/-- Items of the single event queue: net events interleaved with the
time-marker sentinel. -/
inductive SLEItem where
  | ev (net : Nat) (value : Logic)
  | marker
deriving DecidableEq, Repr

/-- State of a `SingleListEventSimulator` instance. -/
structure SingleListEventSimulator where
  circuit : Circuit
  logic_model : LogicModel
  num_nets : Nat
  net_values : List Logic
  net_mark : List Bool
  gate_sim_count : Nat
  output_log : List (List (Nat × Logic))
  intermediate_log : List (Nat × List (Nat × Logic))
deriving DecidableEq, Repr

/-- `SingleListEventSimulator.__init__`. -/
def SingleListEventSimulator.init (circuit : Circuit) (m : LogicModel) :
    SingleListEventSimulator :=
  { circuit := circuit, logic_model := m, num_nets := circuit.next_net_id,
    net_values := init_net_values m circuit.next_net_id,
    net_mark := init_net_mark m circuit.next_net_id,
    gate_sim_count := 0, output_log := [], intermediate_log := [] }

/-- Processing the fanout of one consumed event in the Single-List Event
scheduler: each fanout gate is simulated immediately; a changed output is
appended as a new event unless an identical `(net, value)` event is already
pending in the queue (duplicate suppression). -/
def sle_fanout_gates (gates : List Gate) (values : List Logic) (m : LogicModel)
    (sim_count : Nat) (queue : List SLEItem) : Nat × List SLEItem :=
  match gates with
  | [] => (sim_count, queue)
  | g :: rest =>
    let new_out := g.simulate values m
    let queue :=
      if new_out ≠ values.getD g.output .X then
        if SLEItem.ev g.output new_out ∈ queue then queue
        else queue ++ [SLEItem.ev g.output new_out]
      else queue
    sle_fanout_gates rest values m (sim_count + 1) queue

/-- The fuelled main loop of `SingleListEventSimulator.simulate_vector`. -/
def sle_loop (circ : Circuit) (m : LogicModel) (fuel : Nat) (queue : List SLEItem)
    (values : List Logic) (counts : List Nat) (sim_count time_unit : Nat)
    (ilog : List (Nat × List (Nat × Logic))) :
    Option (List Logic × List Nat × Nat × Nat × List (Nat × List (Nat × Logic))) :=
  match fuel with
  | 0 => none
  | fuel + 1 =>
    match queue with
    | [] => some (values, counts, sim_count, time_unit, ilog)
    | SLEItem.marker :: rest =>
      let ilog := ilog ++ [(time_unit, output_snapshot circ.primary_outputs values)]
      let queue := if rest = [] then rest else rest ++ [SLEItem.marker]
      sle_loop circ m fuel queue values counts sim_count (time_unit + 1) ilog
    | SLEItem.ev net_id new_val :: rest =>
      let p :=
        if new_val ≠ values.getD net_id .X then
          (values.set net_id new_val, counts.set net_id (counts.getD net_id 0 + 1))
        else (values, counts)
      let q := sle_fanout_gates (fanout_get circ.fanout net_id) p.1 m sim_count rest
      sle_loop circ m fuel q.2 p.1 p.2 q.1 time_unit ilog

/-- `SingleListEventSimulator.simulate_vector` (fuelled).  Returns the
updated simulator, the hazards list, and the per-call `change_count`. -/
def SingleListEventSimulator.simulate_vector (fuel : Nat)
    (s : SingleListEventSimulator) (vec : List (Nat × Logic)) :
    Option (SingleListEventSimulator × List (Nat × HazardKind) × List Nat) :=
  let old_values := s.net_values
  let counts : List Nat := List.replicate s.num_nets 0
  let q := tl_queue_inputs s.circuit.primary_inputs s.logic_model vec s.net_values s.net_mark
  let queue := (q.1.map (fun e => SLEItem.ev e.net e.value)) ++ [SLEItem.marker]
  match sle_loop s.circuit s.logic_model fuel queue s.net_values counts 0 0 [] with
  | none => none
  | some (values, counts, sim_count, _time_unit, ilog) =>
    some ({ s with
              net_values := values,
              net_mark := q.2,
              gate_sim_count := s.gate_sim_count + sim_count,
              output_log := s.output_log ++ [output_snapshot s.circuit.primary_outputs values],
              intermediate_log := s.intermediate_log ++ ilog },
          hazard_scan s.num_nets old_values values counts,
          counts)

/-! ## SingleListGateSimulator -/

/-- Items of the single gate queue: gates interleaved with the marker. -/
inductive SLGItem where
  | gate (g : Gate)
  | marker
deriving DecidableEq, Repr

/-- State of a `SingleListGateSimulator` instance (no mark flags). -/
structure SingleListGateSimulator where
  circuit : Circuit
  logic_model : LogicModel
  num_nets : Nat
  net_values : List Logic
  gate_sim_count : Nat
  output_log : List (List (Nat × Logic))
  intermediate_log : List (Nat × List (Nat × Logic))
deriving DecidableEq, Repr

/-- `SingleListGateSimulator.__init__`. -/
def SingleListGateSimulator.init (circuit : Circuit) (m : LogicModel) :
    SingleListGateSimulator :=
  { circuit := circuit, logic_model := m, num_nets := circuit.next_net_id,
    net_values := init_net_values m circuit.next_net_id,
    gate_sim_count := 0, output_log := [], intermediate_log := [] }

/-- The input loop of `SingleListGateSimulator.simulate_vector`: commit each
changed primary-input value directly and collect the changed nets. -/
def slg_commit_inputs (pis : List Nat) (vec : List (Nat × Logic))
    (values : List Logic) : List Logic × List Nat :=
  pis.foldl (fun (acc : List Logic × List Nat) net =>
    let (values, changed) := acc
    let val := vec_get vec net (values.getD net .X)
    if val ≠ values.getD net .X then (values.set net val, changed ++ [net])
    else (values, changed)) (values, [])

/-- Python-dict update `temp_net_values[out_net] = val` (existing keys keep
their insertion position). -/
def temp_set (t : List (Nat × Logic)) (n : Nat) (v : Logic) : List (Nat × Logic) :=
  match t with
  | [] => [(n, v)]
  | (k, w) :: rest => if k = n then (k, v) :: rest else (k, w) :: temp_set rest n v

/-- Committing the pending map at a marker boundary (iteration in insertion
order, counting actual changes). -/
def slg_commit_temp (temp : List (Nat × Logic)) (values : List Logic)
    (counts : List Nat) : List Logic × List Nat :=
  temp.foldl (fun (acc : List Logic × List Nat) kv =>
    let (values, counts) := acc
    if kv.2 ≠ values.getD kv.1 .X then
      (values.set kv.1 kv.2, counts.set kv.1 (counts.getD kv.1 0 + 1))
    else (values, counts)) (values, counts)

/-- The fuelled main loop of `SingleListGateSimulator.simulate_vector`.
Gate outputs go into the pending map `temp`; `flagged` prevents re-queueing
a gate within the same time step. -/
def slg_loop (circ : Circuit) (m : LogicModel) (fuel : Nat) (queue : List SLGItem)
    (values : List Logic) (counts : List Nat) (temp : List (Nat × Logic))
    (flagged : List Gate) (sim_count time_unit : Nat)
    (ilog : List (Nat × List (Nat × Logic))) :
    Option (List Logic × List Nat × Nat × Nat × List (Nat × List (Nat × Logic))) :=
  match fuel with
  | 0 => none
  | fuel + 1 =>
    match queue with
    | [] => some (values, counts, sim_count, time_unit, ilog)
    | SLGItem.marker :: rest =>
      let p := slg_commit_temp temp values counts
      let values := p.1
      let counts := p.2
      let ilog := ilog ++ [(time_unit, output_snapshot circ.primary_outputs values)]
      let queue := if rest = [] then rest else rest ++ [SLGItem.marker]
      let flagged := if rest = [] then flagged else []
      slg_loop circ m fuel queue values counts [] flagged sim_count (time_unit + 1) ilog
    | SLGItem.gate g :: rest =>
      let new_val := g.simulate values m
      let q :=
        if new_val ≠ values.getD g.output .X then
          ((fanout_get circ.fanout g.output).foldl
            (fun (acc : List SLGItem × List Gate) h =>
              if h ∈ acc.2 then acc else (acc.1 ++ [SLGItem.gate h], acc.2 ++ [h]))
            (rest, flagged),
           temp_set temp g.output new_val)
        else ((rest, flagged), temp)
      slg_loop circ m fuel q.1.1 values counts q.2 q.1.2 (sim_count + 1) time_unit ilog

/-- `SingleListGateSimulator.simulate_vector` (fuelled). -/
def SingleListGateSimulator.simulate_vector (fuel : Nat)
    (s : SingleListGateSimulator) (vec : List (Nat × Logic)) :
    Option (SingleListGateSimulator × List (Nat × HazardKind) × List Nat) :=
  let old_values := s.net_values
  let counts : List Nat := List.replicate s.num_nets 0
  let p := slg_commit_inputs s.circuit.primary_inputs vec s.net_values
  let queue :=
    (p.2.foldl (fun q net =>
      q ++ (fanout_get s.circuit.fanout net).map SLGItem.gate) []) ++ [SLGItem.marker]
  match slg_loop s.circuit s.logic_model fuel queue p.1 counts [] [] 0 0 [] with
  | none => none
  | some (values, counts, sim_count, _time_unit, ilog) =>
    some ({ s with
              net_values := values,
              gate_sim_count := s.gate_sim_count + sim_count,
              output_log := s.output_log ++ [output_snapshot s.circuit.primary_outputs values],
              intermediate_log := s.intermediate_log ++ ilog },
          hazard_scan s.num_nets old_values values counts,
          counts)

/-! ## ZeroDelaySimulator -/

/-- State of a `ZeroDelaySimulator` instance.  `levels` maps gate id to its
topological level (gates on cycles never receive one); `net_values` is
initialised to all `'0'` regardless of the logic model, exactly as
`ZeroDelaySimulator.__init__` does. -/
structure ZeroDelaySimulator where
  circuit : Circuit
  logic_model : LogicModel
  num_nets : Nat
  net_values : List Logic
  gate_sim_count : Nat
  output_log : List (List (Nat × Logic))
  intermediate_log : List (Nat × List (Nat × Logic))
  levels : List (Nat × Nat)
  max_level : Nat
deriving DecidableEq, Repr

/-- The initial in-degree table of the levelization: for each gate, one unit
per driver gate of each of its inputs (with multiplicity), indexed by gate
id. -/
def zd_indeg (c : Circuit) : List Nat :=
  c.gates.map (fun g =>
    g.inputs.foldl (fun d net => d + (c.get_gate_by_output net).length) 0)

/-- The Kahn traversal of the levelization (the `while queue:` loop of
`ZeroDelaySimulator.__init__`).  Each gate is popped at most once, so fuel
`c.gates.length` suffices. -/
def zd_levelize_loop (c : Circuit) (fuel : Nat) (queue : List Gate)
    (indeg : List Nat) (levels : List (Nat × Nat)) (max_level : Nat) :
    List (Nat × Nat) × Nat :=
  match fuel, queue with
  | 0, _ => (levels, max_level)
  | _, [] => (levels, max_level)
  | fuel + 1, g :: rest =>
    let lvl := alist_getD levels g.id 0
    let max_level := max max_level lvl
    let step := (fanout_get c.fanout g.output).foldl
      (fun (acc : List Gate × List Nat × List (Nat × Nat)) h =>
        let (queue, indeg, levels) := acc
        let indeg := indeg.set h.id (indeg.getD h.id 0 - 1)
        if indeg.getD h.id 0 = 0 then
          (queue ++ [h], indeg, levels ++ [(h.id, lvl + 1)])
        else (queue, indeg, levels))
      (rest, indeg, levels)
    zd_levelize_loop c fuel step.1 step.2.1 step.2.2 max_level

/-- `ZeroDelaySimulator.__init__`, including the construction-time
levelization pass. -/
def ZeroDelaySimulator.init (circuit : Circuit) (m : LogicModel) : ZeroDelaySimulator :=
  let indeg := zd_indeg circuit
  let queue0 := circuit.gates.filter (fun g => indeg.getD g.id 0 = 0)
  let levels0 := queue0.map (fun g => (g.id, 0))
  let p := zd_levelize_loop circuit circuit.gates.length queue0 indeg levels0 0
  { circuit := circuit, logic_model := m, num_nets := circuit.next_net_id,
    net_values := List.replicate circuit.next_net_id Logic.zero,
    gate_sim_count := 0, output_log := [], intermediate_log := [],
    levels := p.1, max_level := p.2 }

/-- Scheduling phase of `ZeroDelaySimulator.simulate_vector`: commit each
changed primary input and place its fanout gates in their level buckets
(no duplicates per bucket). -/
def zd_schedule_inputs (circ : Circuit) (levels : List (Nat × Nat))
    (vec : List (Nat × Logic)) (values : List Logic)
    (queues : List (List Gate)) : List Logic × List (List Gate) :=
  circ.primary_inputs.foldl (fun (acc : List Logic × List (List Gate)) net =>
    let (values, queues) := acc
    let new_val := vec_get vec net (values.getD net .X)
    if new_val ≠ values.getD net .X then
      let values := values.set net new_val
      let queues := (fanout_get circ.fanout net).foldl (fun qs g =>
        let lvl := alist_getD levels g.id 0
        if g ∈ qs.getD lvl [] then qs else qs.set lvl (qs.getD lvl [] ++ [g])) queues
      (values, queues)
    else (values, queues)) (values, queues)

/-- The fuelled `while level_queues[lvl]:` drain at one level: pop the head
gate, simulate it, commit a changed output immediately and re-bucket its
fanout gates (setting the iteration flag on feedback to a lower level). -/
def zd_drain_level (circ : Circuit) (m : LogicModel) (levels : List (Nat × Nat))
    (fuel : Nat) (lvl : Nat) (queues : List (List Gate)) (values : List Logic)
    (sim_count : Nat) (iteration : Bool) :
    Option (List (List Gate) × List Logic × Nat × Bool) :=
  match fuel with
  | 0 => none
  | fuel + 1 =>
    match queues.getD lvl [] with
    | [] => some (queues, values, sim_count, iteration)
    | g :: rest =>
      let queues := queues.set lvl rest
      let new_val := g.simulate values m
      if new_val ≠ values.getD g.output .X then
        let values := values.set g.output new_val
        let step := (fanout_get circ.fanout g.output).foldl
          (fun (acc : List (List Gate) × Bool) h =>
            let h_lvl := alist_getD levels h.id 0
            let it := if h_lvl < lvl then true else acc.2
            if h ∈ acc.1.getD h_lvl [] then (acc.1, it)
            else (acc.1.set h_lvl (acc.1.getD h_lvl [] ++ [h]), it))
          (queues, iteration)
        zd_drain_level circ m levels fuel lvl step.1 values (sim_count + 1) step.2
      else
        zd_drain_level circ m levels fuel lvl queues values (sim_count + 1) iteration

/-- One ascending sweep over the levels `0..max_level`. -/
def zd_run_levels (circ : Circuit) (m : LogicModel) (levels : List (Nat × Nat))
    (fuel : Nat) (lvls : List Nat) (queues : List (List Gate))
    (values : List Logic) (sim_count : Nat) (iteration : Bool) :
    Option (List (List Gate) × List Logic × Nat × Bool) :=
  match lvls with
  | [] => some (queues, values, sim_count, iteration)
  | lvl :: rest =>
    match zd_drain_level circ m levels fuel lvl queues values sim_count iteration with
    | none => none
    | some (queues, values, sim_count, iteration) =>
      zd_run_levels circ m levels fuel rest queues values sim_count iteration

/-- `ZeroDelaySimulator.simulate_vector` (fuelled): the outer
`while iteration and pass_num < 2:` loop performs the first sweep
unconditionally and a second one only if the first reported feedback.
Returns the updated simulator and the (always empty) hazards list. -/
def ZeroDelaySimulator.simulate_vector (fuel : Nat) (s : ZeroDelaySimulator)
    (vec : List (Nat × Logic)) :
    Option (ZeroDelaySimulator × List (Nat × HazardKind)) :=
  let queues0 : List (List Gate) := List.replicate (s.max_level + 1) []
  let p := zd_schedule_inputs s.circuit s.levels vec s.net_values queues0
  let lvls := List.range (s.max_level + 1)
  match zd_run_levels s.circuit s.logic_model s.levels fuel lvls p.2 p.1 0 false with
  | none => none
  | some (queues, values, sim_count, iteration) =>
    let after :=
      if iteration then
        zd_run_levels s.circuit s.logic_model s.levels fuel lvls queues values sim_count false
      else some (queues, values, sim_count, false)
    match after with
    | none => none
    | some (_, values, sim_count, _) =>
      some ({ s with
                net_values := values,
                gate_sim_count := s.gate_sim_count + sim_count,
                output_log := s.output_log ++ [output_snapshot s.circuit.primary_outputs values] },
            [])

/-! ## ThreadedSimulator -/

/-- Tasks of the threaded scheduler (`NetEventTask` / `GateTask`). -/
inductive ThTask where
  | netEvent (net : Nat) (value : Logic)
  | gateTask (g : Gate)
deriving DecidableEq, Repr

/-- State of a `ThreadedSimulator` instance.  The two LIFO stacks are
represented head-first (pushing is `::`, popping takes the head, matching
Python's `append`/`pop()` pair). -/
structure ThreadedSimulator where
  circuit : Circuit
  logic_model : LogicModel
  num_nets : Nat
  net_values : List Logic
  event_stack : List ThTask
  gate_stack : List ThTask
  gate_sim_count : Nat
  output_log : List (List (Nat × Logic))
deriving DecidableEq, Repr

/-- `ThreadedSimulator.__init__`. -/
def ThreadedSimulator.init (circuit : Circuit) (m : LogicModel) : ThreadedSimulator :=
  { circuit := circuit, logic_model := m, num_nets := circuit.next_net_id,
    net_values := init_net_values m circuit.next_net_id,
    event_stack := [], gate_stack := [], gate_sim_count := 0, output_log := [] }

/-- The fuelled task loop of `ThreadedSimulator.simulate_vector`: pop from
the event stack if non-empty, else from the gate stack; a net event commits
a change and pushes a gate task per fanout gate (last fanout gate on top);
a gate task simulates and pushes a net event when the output would change. -/
def th_loop (circ : Circuit) (m : LogicModel) (fuel : Nat)
    (estack gstack : List ThTask) (values : List Logic) (counts : List Nat)
    (sim_count : Nat) : Option (List Logic × List Nat × Nat) :=
  match fuel with
  | 0 => none
  | fuel + 1 =>
    match estack, gstack with
    | [], [] => some (values, counts, sim_count)
    | ThTask.netEvent net value :: rest, gstack =>
      let p :=
        if value ≠ values.getD net .X then
          (values.set net value, counts.set net (counts.getD net 0 + 1))
        else (values, counts)
      let gstack := (fanout_get circ.fanout net).foldl
        (fun s g => ThTask.gateTask g :: s) gstack
      th_loop circ m fuel rest gstack p.1 p.2 sim_count
    | ThTask.gateTask g :: rest, gstack =>
      -- unreachable: a gate task is never pushed on the event stack
      let new_val := g.simulate values m
      let estack :=
        if new_val ≠ values.getD g.output .X then ThTask.netEvent g.output new_val :: rest
        else rest
      th_loop circ m fuel estack gstack values counts (sim_count + 1)
    | [], ThTask.gateTask g :: rest =>
      let new_val := g.simulate values m
      let estack :=
        if new_val ≠ values.getD g.output .X then [ThTask.netEvent g.output new_val]
        else []
      th_loop circ m fuel estack rest values counts (sim_count + 1)
    | [], ThTask.netEvent net value :: rest =>
      -- unreachable: a net event is never pushed on the gate stack
      let p :=
        if value ≠ values.getD net .X then
          (values.set net value, counts.set net (counts.getD net 0 + 1))
        else (values, counts)
      let gstack := (fanout_get circ.fanout net).foldl
        (fun s g => ThTask.gateTask g :: s) rest
      th_loop circ m fuel [] gstack p.1 p.2 sim_count

/-- `ThreadedSimulator.simulate_vector` (fuelled).  Initial net events are
pushed for each changed primary input (the last one ends on top of the
stack). -/
def ThreadedSimulator.simulate_vector (fuel : Nat) (s : ThreadedSimulator)
    (vec : List (Nat × Logic)) :
    Option (ThreadedSimulator × List (Nat × HazardKind) × List Nat) :=
  let old_values := s.net_values
  let counts : List Nat := List.replicate s.num_nets 0
  let estack := s.circuit.primary_inputs.foldl (fun st net =>
    let new_val := vec_get vec net (s.net_values.getD net .X)
    if new_val ≠ s.net_values.getD net .X then ThTask.netEvent net new_val :: st
    else st) s.event_stack
  match th_loop s.circuit s.logic_model fuel estack s.gate_stack s.net_values counts 0 with
  | none => none
  | some (values, counts, sim_count) =>
    some ({ s with
              net_values := values,
              event_stack := [],
              gate_stack := [],
              gate_sim_count := s.gate_sim_count + sim_count,
              output_log := s.output_log ++ [output_snapshot s.circuit.primary_outputs values] },
          hazard_scan s.num_nets old_values values counts,
          counts)

/-! ## Spec-side reference evaluator and concrete circuits -/

/-- Modelled from the spec: the "function-level evaluation of its defining
gates in topological order" used as the reference point of the spec's
universal invariant 1.  Starting from the simulator's current stored values,
the primary inputs are overwritten with the vector's values (absent keys
retain state) and then every gate is evaluated exactly once, in a
topological order of the acyclic circuit; for the concrete circuits below
the gate list itself is topologically sorted, so the single left-to-right
pass is exactly that evaluation. -/
def func_eval (circ : Circuit) (m : LogicModel) (values : List Logic)
    (vec : List (Nat × Logic)) : List Logic :=
  let values := circ.primary_inputs.foldl
    (fun v net => v.set net (vec_get vec net (v.getD net .X))) values
  circ.gates.foldl (fun v g => v.set g.output (g.simulate v m)) values

/-- Circuit for the C1 failing input: nets `A`,`B` (primary inputs),
`X := AND(A,B)`, primary output `Y := NOT(X)`.  Net ids: A=0, B=1, Y=2, X=3. -/
def andNotCirc : Circuit :=
  (((Circuit.empty.set_primary_inputs ["A", "B"]).set_primary_outputs ["Y"]).add_gate_d
      "AND" ["A", "B"] "X").add_gate_d "NOT" ["X"] "Y"

/-- The all-zero first input vector for `andNotCirc`. -/
def andNotVec : List (Nat × Logic) := [(0, .zero), (1, .zero)]

/-- Circuit for the C4 failing input: primary input `A`, primary output
`Y := NOT(A)`.  Net ids: A=0, Y=1. -/
def notCirc : Circuit :=
  ((Circuit.empty.set_primary_inputs ["A"]).set_primary_outputs ["Y"]).add_gate_d
    "NOT" ["A"] "Y"

/-- Circuit for the C5 failing input: a two-gate feedback loop
`a := NAND(I, b)`, `b := AND(a, a)` triggered by primary input `I`.
Net ids: I=0, b=1, a=2; both gates sit in a cycle, so the levelization
leaves them at default level 0. -/
def loopCirc : Circuit :=
  (((Circuit.empty.set_primary_inputs ["I"]).add_gate_d
      "NAND" ["I", "b"] "a").add_gate_d "AND" ["a", "a"] "b").set_primary_outputs ["a"]

/-- The vector `{I: '1'}` that starts the oscillation in `loopCirc`. -/
def loopVec : List (Nat × Logic) := [(0, .one)]

/-- A one-net circuit (a single primary input `A`). -/
def oneNetCirc : Circuit := Circuit.empty.set_primary_inputs ["A"]

/-! Concrete first-call results of the five simulators on `andNotCirc` with
the all-zero vector (used by closed theorems and witnesses below). -/

def tlAndNot : TwoListSimulator × List (Nat × HazardKind) × List Nat :=
  (TwoListSimulator.simulate_vector 20 (TwoListSimulator.init andNotCirc .twoVal)
    andNotVec).getD (TwoListSimulator.init andNotCirc .twoVal, [], [])

def sleAndNot : SingleListEventSimulator × List (Nat × HazardKind) × List Nat :=
  (SingleListEventSimulator.simulate_vector 20
    (SingleListEventSimulator.init andNotCirc .twoVal) andNotVec).getD
    (SingleListEventSimulator.init andNotCirc .twoVal, [], [])

def slgAndNot : SingleListGateSimulator × List (Nat × HazardKind) × List Nat :=
  (SingleListGateSimulator.simulate_vector 20
    (SingleListGateSimulator.init andNotCirc .twoVal) andNotVec).getD
    (SingleListGateSimulator.init andNotCirc .twoVal, [], [])

def zdAndNot : ZeroDelaySimulator × List (Nat × HazardKind) :=
  (ZeroDelaySimulator.simulate_vector 20 (ZeroDelaySimulator.init andNotCirc .twoVal)
    andNotVec).getD (ZeroDelaySimulator.init andNotCirc .twoVal, [])

def thAndNot : ThreadedSimulator × List (Nat × HazardKind) × List Nat :=
  (ThreadedSimulator.simulate_vector 20 (ThreadedSimulator.init andNotCirc .twoVal)
    andNotVec).getD (ThreadedSimulator.init andNotCirc .twoVal, [], [])

/-- Result of the C4 failing input: `SingleListGateSimulator` on `notCirc`,
first call, with the supplied input equal to the stored initial value. -/
def slgNotRun : SingleListGateSimulator × List (Nat × HazardKind) × List Nat :=
  (SingleListGateSimulator.simulate_vector 5
    (SingleListGateSimulator.init notCirc .twoVal) [(0, .zero)]).getD
    (SingleListGateSimulator.init notCirc .twoVal, [], [])

/-! ## Two-valued-closure predicates and multi-call runners -/

/-- A logic value in the 2-valued set `{0, 1}`. -/
def bool_val (v : Logic) : Prop := v = .zero ∨ v = .one

/-- Every entry of a value list is 2-valued. -/
def bool_vals (l : List Logic) : Prop := ∀ v ∈ l, bool_val v

/-- Every value supplied by an input vector is 2-valued. -/
def bool_vec (vec : List (Nat × Logic)) : Prop := ∀ kv ∈ vec, bool_val kv.2

/-- Every binding of every output-log entry is 2-valued. -/
def bool_log (log : List (List (Nat × Logic))) : Prop :=
  ∀ entry ∈ log, ∀ kv ∈ entry, bool_val kv.2

/-- A gate whose type is supported, whose net references lie below `n`, and
with at least one input (so a `NOT` reads a real net). -/
def WFGate (g : Gate) (n : Nat) : Prop :=
  g.type ∈ GATE_FUNCS_KEYS ∧ (∀ i ∈ g.inputs, i < n) ∧ g.output < n ∧ g.inputs ≠ []

/-- A circuit whose gates, fanout entries and primary IO lists stay within
its dense net range — true of every circuit assembled through `add_gate`,
`set_primary_inputs` and `set_primary_outputs`. -/
def WFCirc (c : Circuit) : Prop :=
  (∀ g ∈ c.gates, WFGate g c.next_net_id) ∧
  (∀ p ∈ c.fanout, ∀ g ∈ p.2, WFGate g c.next_net_id) ∧
  (∀ i ∈ c.primary_inputs, i < c.next_net_id) ∧
  (∀ i ∈ c.primary_outputs, i < c.next_net_id)

/-- Event values pending on the Single-List Event queue. -/
def sle_item_bool : SLEItem → Prop
  | .ev _ v => bool_val v
  | .marker => True

/-- Gates pending on the Single-List Gate queue are well formed. -/
def slg_item_wf (n : Nat) : SLGItem → Prop
  | .gate g => WFGate g n
  | .marker => True

/-- Tasks of the threaded scheduler: event tasks carry 2-valued values,
gate tasks carry well-formed gates. -/
def th_task_inv (n : Nat) : ThTask → Prop
  | .netEvent _ v => bool_val v
  | .gateTask g => WFGate g n

/-- Successive `simulate_vector` calls on a `TwoListSimulator`. -/
def TwoListSimulator.run_vectors (fuel : Nat) (s : TwoListSimulator) :
    List (List (Nat × Logic)) → Option TwoListSimulator
  | [] => some s
  | vec :: rest =>
    match TwoListSimulator.simulate_vector fuel s vec with
    | none => none
    | some (s', _, _) => s'.run_vectors fuel rest

/-- Successive `simulate_vector` calls on a `SingleListEventSimulator`. -/
def SingleListEventSimulator.run_vectors (fuel : Nat) (s : SingleListEventSimulator) :
    List (List (Nat × Logic)) → Option SingleListEventSimulator
  | [] => some s
  | vec :: rest =>
    match SingleListEventSimulator.simulate_vector fuel s vec with
    | none => none
    | some (s', _, _) => s'.run_vectors fuel rest

/-- Successive `simulate_vector` calls on a `SingleListGateSimulator`. -/
def SingleListGateSimulator.run_vectors (fuel : Nat) (s : SingleListGateSimulator) :
    List (List (Nat × Logic)) → Option SingleListGateSimulator
  | [] => some s
  | vec :: rest =>
    match SingleListGateSimulator.simulate_vector fuel s vec with
    | none => none
    | some (s', _, _) => s'.run_vectors fuel rest

/-- Successive `simulate_vector` calls on a `ZeroDelaySimulator`. -/
def ZeroDelaySimulator.run_vectors (fuel : Nat) (s : ZeroDelaySimulator) :
    List (List (Nat × Logic)) → Option ZeroDelaySimulator
  | [] => some s
  | vec :: rest =>
    match ZeroDelaySimulator.simulate_vector fuel s vec with
    | none => none
    | some (s', _) => s'.run_vectors fuel rest

/-- Successive `simulate_vector` calls on a `ThreadedSimulator`. -/
def ThreadedSimulator.run_vectors (fuel : Nat) (s : ThreadedSimulator) :
    List (List (Nat × Logic)) → Option ThreadedSimulator
  | [] => some s
  | vec :: rest =>
    match ThreadedSimulator.simulate_vector fuel s vec with
    | none => none
    | some (s', _, _) => s'.run_vectors fuel rest

/-! ## General helper lemmas -/

theorem foldl_invariant {α β : Type} (P : β → Prop) (f : β → α → β) (l : List α)
    (init : β) (hinit : P init) (hstep : ∀ b a, a ∈ l → P b → P (f b a)) :
    P (l.foldl f init) := by
  induction l generalizing init with
  | nil => exact hinit
  | cons a rest ih =>
    exact ih (f init a) (hstep init a (by simp) hinit)
      (fun b x hx hb => hstep b x (by simp [hx]) hb)

theorem replicate_getD {α : Type} (a d : α) {n i : Nat} (h : i < n) :
    (List.replicate n a).getD i d = a := by
  induction n generalizing i with
  | zero => omega
  | succ n ih =>
    cases i with
    | zero => rfl
    | succ i => simpa [List.replicate] using ih (Nat.lt_of_succ_lt_succ h)

theorem mem_replicate_eq {α : Type} {a v : α} {n : Nat}
    (h : v ∈ List.replicate n a) : v = a :=
  (List.eq_of_mem_replicate h)

theorem alist_get_append_self {α β : Type} [DecidableEq α] (l : List (α × β)) (k : α)
    (v : β) : (alist_get (l ++ [(k, v)]) k).isSome := by
  induction l with
  | nil => simp [alist_get]
  | cons p rest ih =>
    obtain ⟨a, b⟩ := p
    by_cases h : a = k <;> simp [alist_get, h, ih]

theorem alist_get_append_mono {α β : Type} [DecidableEq α] (l l' : List (α × β))
    (k : α) (h : (alist_get l k).isSome) : (alist_get (l ++ l') k).isSome := by
  induction l with
  | nil => simp [alist_get] at h
  | cons p rest ih =>
    obtain ⟨a, b⟩ := p
    by_cases hk : a = k <;> simp_all [alist_get, hk]

/-! ### Builder lemmas -/

theorem add_net_gates (c : Circuit) (n : String) : (c.add_net n).1.gates = c.gates := by
  unfold Circuit.add_net
  cases alist_get c.net_id_map n <;> rfl

theorem add_net_fanout (c : Circuit) (n : String) : (c.add_net n).1.fanout = c.fanout := by
  unfold Circuit.add_net
  cases alist_get c.net_id_map n <;> rfl

theorem add_net_present (c : Circuit) (n : String) :
    (alist_get (c.add_net n).1.net_id_map n).isSome := by
  unfold Circuit.add_net
  cases h : alist_get c.net_id_map n with
  | none => simpa using alist_get_append_self c.net_id_map n c.next_net_id
  | some i => simp [h]

theorem add_net_preserves (c : Circuit) (n n' : String)
    (h : (alist_get c.net_id_map n').isSome) :
    (alist_get (c.add_net n).1.net_id_map n').isSome := by
  unfold Circuit.add_net
  cases alist_get c.net_id_map n with
  | none => simpa using alist_get_append_mono c.net_id_map _ n' h
  | some i => simpa

theorem add_net_list_gates (c : Circuit) (ns : List String) :
    (c.add_net_list ns).1.gates = c.gates := by
  induction ns generalizing c with
  | nil => rfl
  | cons n rest ih => simpa [Circuit.add_net_list, ih] using add_net_gates c n

theorem add_net_list_fanout (c : Circuit) (ns : List String) :
    (c.add_net_list ns).1.fanout = c.fanout := by
  induction ns generalizing c with
  | nil => rfl
  | cons n rest ih => simpa [Circuit.add_net_list, ih] using add_net_fanout c n

theorem add_net_list_length (c : Circuit) (ns : List String) :
    (c.add_net_list ns).2.length = ns.length := by
  induction ns generalizing c with
  | nil => rfl
  | cons n rest ih => simp [Circuit.add_net_list, ih]

theorem add_net_list_preserves (c : Circuit) (ns : List String) (n' : String)
    (h : (alist_get c.net_id_map n').isSome) :
    (alist_get (c.add_net_list ns).1.net_id_map n').isSome := by
  induction ns generalizing c with
  | nil => exact h
  | cons n rest ih => exact ih (c.add_net n).1 (add_net_preserves c n n' h)

theorem add_net_list_present (c : Circuit) (ns : List String) (n : String)
    (h : n ∈ ns) :
    (alist_get (c.add_net_list ns).1.net_id_map n).isSome := by
  induction ns generalizing c with
  | nil => cases h
  | cons x rest ih =>
    rcases List.mem_cons.mp h with h' | h'
    · subst h'
      exact add_net_list_preserves (c.add_net n).1 rest n (add_net_present c n)
    · exact ih (c.add_net x).1 h'

/-! ## Claim C2 -/

/-- C2: the claim says that in 3-valued mode `logic_and` returns `0` whenever
some input net holds `0` regardless of `U` values on other inputs (dually
`logic_or` returns `1`).  Evaluating the code at the failing input refutes
this: with net 0 holding `U` and net 1 holding `0`, `logic_and` returns `U`
because its loop short-circuits on the first `U` before ever seeing the `0`
(dually `logic_or` on `[U, 1]` returns `U` instead of `1`). -/
theorem C2_controlling_value_does_not_dominate :
    logic_and [0, 1] [Logic.U, Logic.zero] .threeVal = Logic.U ∧
    logic_or [0, 1] [Logic.U, Logic.one] .threeVal = Logic.U ∧
    Logic.U ≠ Logic.zero ∧ Logic.U ≠ Logic.one := by
  refine ⟨rfl, rfl, by decide, by decide⟩

/-! ## Claim C3 -/

/-- C3 counterexample: `ZeroDelaySimulator` constructed in 3-valued mode on a
one-net circuit initialises its net values to `'0'`, not to `'U'` as the
claim states for every simulator. -/
theorem C3_counterexample_zero_delay_3val_init :
    (ZeroDelaySimulator.init oneNetCirc .threeVal).net_values = [Logic.zero] ∧
    Logic.zero ≠ Logic.U := by
  refine ⟨rfl, by decide⟩

/-- C3 (amended): the Two-List, both Single-List and the Threaded simulators
initialise every net value to `U` in 3-valued mode and to `0` in 2-valued
mode, but `ZeroDelaySimulator` initialises every net value to `0` regardless
of the logic model. -/
theorem C3_init_values (circ : Circuit) (m : LogicModel) (i : Nat)
    (h : i < circ.next_net_id) :
    (TwoListSimulator.init circ m).net_values.getD i .X
        = (if m = .threeVal then Logic.U else Logic.zero) ∧
    (SingleListEventSimulator.init circ m).net_values.getD i .X
        = (if m = .threeVal then Logic.U else Logic.zero) ∧
    (SingleListGateSimulator.init circ m).net_values.getD i .X
        = (if m = .threeVal then Logic.U else Logic.zero) ∧
    (ThreadedSimulator.init circ m).net_values.getD i .X
        = (if m = .threeVal then Logic.U else Logic.zero) ∧
    (ZeroDelaySimulator.init circ m).net_values.getD i .X = Logic.zero := by
  refine ⟨?_, ?_, ?_, ?_, ?_⟩ <;>
    simp only [TwoListSimulator.init, SingleListEventSimulator.init,
      SingleListGateSimulator.init, ThreadedSimulator.init, ZeroDelaySimulator.init,
      init_net_values] <;>
    exact replicate_getD _ _ h

/-- Witness for `C3_init_values` at the one-net circuit in 3-valued mode. -/
theorem C3_init_values_witness :
    0 < oneNetCirc.next_net_id ∧
    (TwoListSimulator.init oneNetCirc .threeVal).net_values.getD 0 .X
        = (if LogicModel.threeVal = .threeVal then Logic.U else Logic.zero) ∧
    (ZeroDelaySimulator.init oneNetCirc .threeVal).net_values.getD 0 .X = Logic.zero :=
  ⟨by decide,
   (C3_init_values oneNetCirc .threeVal 0 (by decide)).1,
   (C3_init_values oneNetCirc .threeVal 0 (by decide)).2.2.2.2⟩

/-! ## Claim C8 -/

/-- C8 counterexample: `add_gate` with type `NOT` and two input names
succeeds — no `ArityError` (or any error) is raised and the gate *is* added
to the circuit, refuting the claim that a NOT gate with input count ≠ 1
fails at build time. -/
theorem C8_counterexample_not_with_two_inputs_accepted :
    (Circuit.empty.add_gate "NOT" ["a", "b"] "c").2
        = Except.ok ⟨0, "NOT", [0, 1], 2⟩ ∧
    (Circuit.empty.add_gate "NOT" ["a", "b"] "c").1.gates
        = [⟨0, "NOT", [0, 1], 2⟩] := by
  refine ⟨rfl, rfl⟩

/-- C8 (amended): `Circuit.add_gate` performs no arity validation at all:
for every circuit and every input-name list (of any length), adding a `NOT`
gate succeeds, and the constructed gate — carrying exactly as many inputs as
names were given — is appended to the gate list. -/
theorem C8_not_gate_arity_unchecked (c : Circuit) (ins : List String) (out : String) :
    ∃ g : Gate,
      (c.add_gate "NOT" ins out).2 = Except.ok g ∧
      g.type = "NOT" ∧
      g.inputs.length = ins.length ∧
      (c.add_gate "NOT" ins out).1.gates = c.gates ++ [g] := by
  have hmem : ("NOT" : String) ∈ GATE_FUNCS_KEYS := by decide
  unfold Circuit.add_gate
  rw [show str_upper "NOT" = "NOT" from rfl, if_pos hmem]
  refine ⟨_, rfl, rfl, ?_, ?_⟩
  · exact add_net_list_length c ins
  · simp only [add_net_gates, add_net_list_gates]

/-! ## Claim C9 -/

/-- C9: `add_gate` with an unsupported gate type fails, but not atomically:
the returned circuit has already created every net named among the inputs
and the output (its `net_id_map` resolves them all), while the gate list and
the fanout index are left unchanged.  The resulting circuit is exactly the
input circuit after the `add_net` calls. -/
theorem C9_add_gate_unsupported_type_partial_mutation (c : Circuit) (t : String)
    (ins : List String) (out : String) (h : str_upper t ∉ GATE_FUNCS_KEYS) :
    (c.add_gate t ins out).2
        = Except.error ("Unsupported gate type: " ++ str_upper t) ∧
    (c.add_gate t ins out).1 = ((c.add_net_list ins).1.add_net out).1 ∧
    (c.add_gate t ins out).1.gates = c.gates ∧
    (c.add_gate t ins out).1.fanout = c.fanout ∧
    (∀ name ∈ ins, (alist_get (c.add_gate t ins out).1.net_id_map name).isSome) ∧
    (alist_get (c.add_gate t ins out).1.net_id_map out).isSome := by
  unfold Circuit.add_gate
  simp only [if_neg h]
  refine ⟨trivial, trivial, ?_, ?_, ?_, ?_⟩
  · simp [add_net_gates, add_net_list_gates]
  · simp [add_net_fanout, add_net_list_fanout]
  · intro name hname
    exact add_net_preserves _ out name (add_net_list_present c ins name hname)
  · exact add_net_present _ out

/-- Witness for `C9_add_gate_unsupported_type_partial_mutation` with the
unsupported type `"FOO"` on the empty circuit. -/
theorem C9_witness :
    str_upper "FOO" ∉ GATE_FUNCS_KEYS ∧
    (Circuit.empty.add_gate "FOO" ["a"] "b").2
        = Except.error ("Unsupported gate type: " ++ str_upper "FOO") ∧
    (Circuit.empty.add_gate "FOO" ["a"] "b").1.gates = Circuit.empty.gates :=
  ⟨by decide,
   (C9_add_gate_unsupported_type_partial_mutation Circuit.empty "FOO" ["a"] "b" (by decide)).1,
   (C9_add_gate_unsupported_type_partial_mutation Circuit.empty "FOO" ["a"] "b" (by decide)).2.2.1⟩

/-! ## Claim C6 -/

/-- C6: `ZeroDelaySimulator` never detects hazards and never logs
intermediate states: the intermediate log is empty at construction, and
every completed `simulate_vector` call returns `[]` as its hazards list and
leaves `intermediate_log` exactly as it was — hence over any number of
calls it remains empty. -/
theorem C6_zero_delay_no_hazards_no_intermediate_log :
    (∀ circ m, (ZeroDelaySimulator.init circ m).intermediate_log = []) ∧
    (∀ fuel s vec s' hz,
      ZeroDelaySimulator.simulate_vector fuel s vec = some (s', hz) →
        hz = [] ∧ s'.intermediate_log = s.intermediate_log) := by
  constructor
  · intro circ m
    rfl
  · intro fuel s vec s' hz h
    simp only [ZeroDelaySimulator.simulate_vector] at h
    split at h
    · exact Option.noConfusion h
    · split at h
      · exact Option.noConfusion h
      · rw [Option.some.injEq, Prod.mk.injEq] at h
        obtain ⟨h1, h2⟩ := h
        subst h1
        subst h2
        exact ⟨rfl, rfl⟩

/-- Witness for `C6_zero_delay_no_hazards_no_intermediate_log` at a
completed concrete run. -/
theorem C6_witness :
    (ZeroDelaySimulator.simulate_vector 20 (ZeroDelaySimulator.init andNotCirc .twoVal)
        andNotVec = some zdAndNot) ∧
    zdAndNot.2 = [] ∧
    zdAndNot.1.intermediate_log
      = (ZeroDelaySimulator.init andNotCirc .twoVal).intermediate_log := by
  have h : ZeroDelaySimulator.simulate_vector 20
      (ZeroDelaySimulator.init andNotCirc .twoVal) andNotVec
      = some (zdAndNot.1, zdAndNot.2) := rfl
  exact ⟨h,
    (C6_zero_delay_no_hazards_no_intermediate_log.2 20
      (ZeroDelaySimulator.init andNotCirc .twoVal) andNotVec zdAndNot.1 zdAndNot.2 h).1,
    (C6_zero_delay_no_hazards_no_intermediate_log.2 20
      (ZeroDelaySimulator.init andNotCirc .twoVal) andNotVec zdAndNot.1 zdAndNot.2 h).2⟩

/-! ## Claim C5 -/

theorem zd_run_levels_head_none (circ : Circuit) (m : LogicModel)
    (levels : List (Nat × Nat)) (fuel lvl : Nat) (rest : List Nat)
    (queues : List (List Gate)) (values : List Logic) (c : Nat) (it : Bool)
    (h : zd_drain_level circ m levels fuel lvl queues values c it = none) :
    zd_run_levels circ m levels fuel (lvl :: rest) queues values c it = none := by
  unfold zd_run_levels
  rw [h]

theorem zd_simulate_vector_none (fuel : Nat) (s : ZeroDelaySimulator)
    (vec : List (Nat × Logic))
    (h : zd_run_levels s.circuit s.logic_model s.levels fuel
        (List.range (s.max_level + 1))
        (zd_schedule_inputs s.circuit s.levels vec s.net_values
          (List.replicate (s.max_level + 1) [])).2
        (zd_schedule_inputs s.circuit s.levels vec s.net_values
          (List.replicate (s.max_level + 1) [])).1 0 false = none) :
    ZeroDelaySimulator.simulate_vector fuel s vec = none := by
  simp only [ZeroDelaySimulator.simulate_vector]
  rw [h]

/-- On `loopCirc` after committing `I := 1`, the level-0 drain cycles with
period 4 through the states
`([[NAND]], [1,0,0]) → ([[AND]], [1,0,1]) → ([[NAND]], [1,1,1]) →
([[AND]], [1,1,0]) → ([[NAND]], [1,0,0])`, so it exhausts any fuel. -/
theorem zd_loop_cycle (n : Nat) : ∀ (c : Nat) (it : Bool),
    zd_drain_level loopCirc .twoVal [] n 0 [[⟨0, "NAND", [0, 1], 2⟩]]
      [.one, .zero, .zero] c it = none ∧
    zd_drain_level loopCirc .twoVal [] n 0 [[⟨1, "AND", [2, 2], 1⟩]]
      [.one, .zero, .one] c it = none ∧
    zd_drain_level loopCirc .twoVal [] n 0 [[⟨0, "NAND", [0, 1], 2⟩]]
      [.one, .one, .one] c it = none ∧
    zd_drain_level loopCirc .twoVal [] n 0 [[⟨1, "AND", [2, 2], 1⟩]]
      [.one, .one, .zero] c it = none := by
  induction n with
  | zero => exact fun c it => ⟨rfl, rfl, rfl, rfl⟩
  | succ n ih =>
    intro c it
    exact ⟨(ih (c + 1) it).2.1, (ih (c + 1) it).2.2.1,
           (ih (c + 1) it).2.2.2, (ih (c + 1) it).1⟩

/-- C5: the claim says `ZeroDelaySimulator.simulate_vector` terminates on
every circuit, the two-pass rule bounding the work even on feedback loops.
This is false: on the two-gate oscillating loop `a := NAND(I,b)`,
`b := AND(a,a)`, the call with `{I: '1'}` exhausts *every* fuel bound — the
two-pass limit bounds only the outer sweep, while the inner per-level
`while level_queues[lvl]:` drain re-enqueues the two gates against each
other forever. -/
theorem C5_zero_delay_loop_runs_forever (fuel : Nat) :
    ZeroDelaySimulator.simulate_vector fuel
      (ZeroDelaySimulator.init loopCirc .twoVal) loopVec = none := by
  apply zd_simulate_vector_none
  show zd_run_levels loopCirc .twoVal [] fuel [0]
      [[⟨0, "NAND", [0, 1], 2⟩]] [.one, .zero, .zero] 0 false = none
  exact zd_run_levels_head_none loopCirc .twoVal [] fuel 0 []
    [[⟨0, "NAND", [0, 1], 2⟩]] [.one, .zero, .zero] 0 false
    ((zd_loop_cycle fuel 0 false).1)

/-! ## Claim C4 -/

theorem getD_set_ne {α : Type} (l : List α) (i j : Nat) (a d : α) (h : i ≠ j) :
    (l.set i a).getD j d = l.getD j d := by
  induction l generalizing i j with
  | nil => rfl
  | cons b rest ih =>
    cases i with
    | zero =>
      cases j with
      | zero => exact absurd rfl h
      | succ j => rfl
    | succ i =>
      cases j with
      | zero => rfl
      | succ j => exact ih i j (fun e => h (by omega))

theorem getD_set_false (l : List Bool) (i n : Nat) (h : l.getD n false = false) :
    (l.set i false).getD n false = false := by
  induction l generalizing i n with
  | nil => exact h
  | cons b rest ih =>
    cases i with
    | zero =>
      cases n with
      | zero => rfl
      | succ n => simpa using h
    | succ i =>
      cases n with
      | zero => simpa using h
      | succ n => simpa using ih i n (by simpa using h)

theorem getD_set_false_self (l : List Bool) (i : Nat) :
    (l.set i false).getD i false = false := by
  induction l generalizing i with
  | nil => rfl
  | cons b rest ih =>
    cases i with
    | zero => rfl
    | succ i => simpa using ih i

/-- Mark flags already cleared stay cleared across the input-scanning phase. -/
theorem tl_queue_inputs_marks_false (pis : List Nat) (m : LogicModel)
    (vec : List (Nat × Logic)) (values : List Logic) (marks : List Bool) (n : Nat)
    (h : marks.getD n false = false) :
    (tl_queue_inputs pis m vec values marks).2.getD n false = false := by
  induction pis generalizing marks with
  | nil => exact h
  | cons net rest ih =>
    simp only [tl_queue_inputs]
    split
    · split
      · exact ih (marks.set net false) (getD_set_false marks net n h)
      · exact ih marks h
    · split
      · exact ih marks h
      · exact ih marks h

/-- C4 counterexample: `SingleListGateSimulator` (cited by the claim) has no
mark flags at all: in 2-valued mode, the first call with the supplied input
equal to the stored initial value schedules nothing — the single reachable
`NOT` gate is never evaluated (`gate_sim_count` stays 0) and the output net
keeps `'0'`, although the function-level value of `Y = NOT(A)` is `'1'`. -/
theorem C4_counterexample_slg_no_propagation :
    (SingleListGateSimulator.simulate_vector 5
        (SingleListGateSimulator.init notCirc .twoVal) [(0, .zero)]
      = some slgNotRun) ∧
    slgNotRun.1.gate_sim_count = 0 ∧
    slgNotRun.1.net_values = [Logic.zero, Logic.zero] ∧
    func_eval notCirc .twoVal (SingleListGateSimulator.init notCirc .twoVal).net_values
      [(0, .zero)] = [Logic.zero, Logic.one] :=
  ⟨rfl, rfl, rfl, rfl⟩

/-- C4 (amended): only the Two-List and Single-List Event simulators carry
per-net mark flags.  In 2-valued mode, when the marks of all (distinct)
primary inputs are still set — as they all are at construction — their
shared input-scanning phase enqueues one event for *every* primary input,
even when each supplied value equals the stored value, and clears all those
marks.  The Single-List Gate, Zero-Delay and Threaded simulators have no
mark mechanism and schedule nothing when inputs match stored state, and even
for the marked simulators propagation does not reach gates all of whose
inputs are unchanged internal nets. -/
theorem C4_marked_inputs_always_enqueued (pis : List Nat) (vec : List (Nat × Logic))
    (values : List Logic) (marks : List Bool)
    (hm : ∀ n ∈ pis, marks.getD n false = true) (hnd : pis.Nodup) :
    (tl_queue_inputs pis .twoVal vec values marks).1
      = pis.map (fun net => ⟨net, vec_get vec net (values.getD net .X)⟩) ∧
    ∀ n ∈ pis, (tl_queue_inputs pis .twoVal vec values marks).2.getD n false = false := by
  induction pis generalizing marks with
  | nil => exact ⟨rfl, by simp⟩
  | cons net rest ih =>
    have hmark : marks.getD net false = true := hm net (by simp)
    have hm' : ∀ n ∈ rest, (marks.set net false).getD n false = true := by
      intro n hn
      have hne : net ≠ n := by
        rintro rfl
        exact (List.nodup_cons.mp hnd).1 hn
      rw [getD_set_ne _ _ _ _ _ hne]
      exact hm n (by simp [hn])
    have hnd' : rest.Nodup := (List.nodup_cons.mp hnd).2
    obtain ⟨ih1, ih2⟩ := ih (marks.set net false) hm' hnd'
    have hunf : tl_queue_inputs (net :: rest) .twoVal vec values marks
        = (⟨net, vec_get vec net (values.getD net .X)⟩ ::
            (tl_queue_inputs rest .twoVal vec values (marks.set net false)).1,
           (tl_queue_inputs rest .twoVal vec values (marks.set net false)).2) := by
      simp only [tl_queue_inputs]
      rw [if_pos trivial, if_pos (Or.inr hmark)]
    constructor
    · rw [hunf]
      dsimp only
      rw [ih1]
      rfl
    · intro n hn
      rw [hunf]
      dsimp only
      rcases List.mem_cons.mp hn with rfl | hn'
      · exact tl_queue_inputs_marks_false rest .twoVal vec values _ n
          (getD_set_false_self marks n)
      · exact ih2 n hn'

/-- Witness for `C4_marked_inputs_always_enqueued` at a single marked input
whose supplied value equals the stored value. -/
theorem C4_witness :
    (tl_queue_inputs [0] .twoVal [(0, Logic.zero)] [Logic.zero] [true]).1
        = [⟨0, Logic.zero⟩] ∧
    (tl_queue_inputs [0] .twoVal [(0, Logic.zero)] [Logic.zero] [true]).2.getD 0 false
        = false := by
  have h := C4_marked_inputs_always_enqueued [0] [(0, Logic.zero)] [Logic.zero] [true]
    (by decide) (by decide)
  exact ⟨by simpa using h.1, h.2 0 (by simp)⟩

/-! ## Claim C7 -/

/-- Membership characterisation of the shared hazard-detection pass. -/
theorem hazard_scan_mem (num : Nat) (old new : List Logic) (counts : List Nat)
    (n : Nat) (k : HazardKind) :
    ((n, k) ∈ hazard_scan num old new counts) ↔
      (n < num ∧ counts.getD n 0 > 1 ∧
        k = (if old.getD n .X = new.getD n .X then HazardKind.static
             else HazardKind.dynamic)) := by
  simp only [hazard_scan, List.mem_filterMap, List.mem_range]
  constructor
  · rintro ⟨m, hm, hsome⟩
    by_cases hc : counts.getD m 0 > 1
    · rw [if_pos hc, Option.some.injEq, Prod.mk.injEq] at hsome
      obtain ⟨h1, h2⟩ := hsome
      subst h1
      exact ⟨hm, hc, h2.symm⟩
    · rw [if_neg hc] at hsome
      exact Option.noConfusion hsome
  · rintro ⟨hn, hc, hk⟩
    exact ⟨n, hn, by rw [if_pos hc, hk]⟩

/-- C7: for each hazard-detecting simulator (Two-List, both Single-List
variants, Threaded), a pair `(n, kind)` appears in the hazards returned by a
completed `simulate_vector` call if and only if net `n`'s `change_count`
during that call exceeds 1, with kind `static` exactly when the net's final
value equals the value it held when the call began, else `dynamic`. -/
theorem C7_hazard_reporting :
    (∀ fuel s vec s' hz counts,
      TwoListSimulator.simulate_vector fuel s vec = some (s', hz, counts) →
      ∀ n k, ((n, k) ∈ hz ↔
        n < s.num_nets ∧ counts.getD n 0 > 1 ∧
        k = (if s.net_values.getD n .X = s'.net_values.getD n .X then HazardKind.static
             else HazardKind.dynamic))) ∧
    (∀ fuel s vec s' hz counts,
      SingleListEventSimulator.simulate_vector fuel s vec = some (s', hz, counts) →
      ∀ n k, ((n, k) ∈ hz ↔
        n < s.num_nets ∧ counts.getD n 0 > 1 ∧
        k = (if s.net_values.getD n .X = s'.net_values.getD n .X then HazardKind.static
             else HazardKind.dynamic))) ∧
    (∀ fuel s vec s' hz counts,
      SingleListGateSimulator.simulate_vector fuel s vec = some (s', hz, counts) →
      ∀ n k, ((n, k) ∈ hz ↔
        n < s.num_nets ∧ counts.getD n 0 > 1 ∧
        k = (if s.net_values.getD n .X = s'.net_values.getD n .X then HazardKind.static
             else HazardKind.dynamic))) ∧
    (∀ fuel s vec s' hz counts,
      ThreadedSimulator.simulate_vector fuel s vec = some (s', hz, counts) →
      ∀ n k, ((n, k) ∈ hz ↔
        n < s.num_nets ∧ counts.getD n 0 > 1 ∧
        k = (if s.net_values.getD n .X = s'.net_values.getD n .X then HazardKind.static
             else HazardKind.dynamic))) := by
  refine ⟨?_, ?_, ?_, ?_⟩
  · intro fuel s vec s' hz counts h n k
    simp only [TwoListSimulator.simulate_vector] at h
    split at h
    · exact Option.noConfusion h
    · rw [Option.some.injEq, Prod.mk.injEq, Prod.mk.injEq] at h
      obtain ⟨h1, h2, h3⟩ := h
      subst h1
      subst h2
      subst h3
      exact hazard_scan_mem _ _ _ _ n k
  · intro fuel s vec s' hz counts h n k
    simp only [SingleListEventSimulator.simulate_vector] at h
    split at h
    · exact Option.noConfusion h
    · rw [Option.some.injEq, Prod.mk.injEq, Prod.mk.injEq] at h
      obtain ⟨h1, h2, h3⟩ := h
      subst h1
      subst h2
      subst h3
      exact hazard_scan_mem _ _ _ _ n k
  · intro fuel s vec s' hz counts h n k
    simp only [SingleListGateSimulator.simulate_vector] at h
    split at h
    · exact Option.noConfusion h
    · rw [Option.some.injEq, Prod.mk.injEq, Prod.mk.injEq] at h
      obtain ⟨h1, h2, h3⟩ := h
      subst h1
      subst h2
      subst h3
      exact hazard_scan_mem _ _ _ _ n k
  · intro fuel s vec s' hz counts h n k
    simp only [ThreadedSimulator.simulate_vector] at h
    split at h
    · exact Option.noConfusion h
    · rw [Option.some.injEq, Prod.mk.injEq, Prod.mk.injEq] at h
      obtain ⟨h1, h2, h3⟩ := h
      subst h1
      subst h2
      subst h3
      exact hazard_scan_mem _ _ _ _ n k

/-- Witness for `C7_hazard_reporting`: all four hypotheses discharged at
completed concrete runs. -/
theorem C7_witness :
    (TwoListSimulator.simulate_vector 20 (TwoListSimulator.init andNotCirc .twoVal)
        andNotVec = some tlAndNot) ∧
    (((3, HazardKind.static) ∈ tlAndNot.2.1) ↔
      3 < (TwoListSimulator.init andNotCirc .twoVal).num_nets ∧
      tlAndNot.2.2.getD 3 0 > 1 ∧
      HazardKind.static =
        (if (TwoListSimulator.init andNotCirc .twoVal).net_values.getD 3 .X
            = tlAndNot.1.net_values.getD 3 .X then HazardKind.static
         else HazardKind.dynamic)) ∧
    (SingleListEventSimulator.simulate_vector 20
        (SingleListEventSimulator.init andNotCirc .twoVal) andNotVec = some sleAndNot) ∧
    (((3, HazardKind.static) ∈ sleAndNot.2.1) ↔
      3 < (SingleListEventSimulator.init andNotCirc .twoVal).num_nets ∧
      sleAndNot.2.2.getD 3 0 > 1 ∧
      HazardKind.static =
        (if (SingleListEventSimulator.init andNotCirc .twoVal).net_values.getD 3 .X
            = sleAndNot.1.net_values.getD 3 .X then HazardKind.static
         else HazardKind.dynamic)) ∧
    (SingleListGateSimulator.simulate_vector 20
        (SingleListGateSimulator.init andNotCirc .twoVal) andNotVec = some slgAndNot) ∧
    (((3, HazardKind.static) ∈ slgAndNot.2.1) ↔
      3 < (SingleListGateSimulator.init andNotCirc .twoVal).num_nets ∧
      slgAndNot.2.2.getD 3 0 > 1 ∧
      HazardKind.static =
        (if (SingleListGateSimulator.init andNotCirc .twoVal).net_values.getD 3 .X
            = slgAndNot.1.net_values.getD 3 .X then HazardKind.static
         else HazardKind.dynamic)) ∧
    (ThreadedSimulator.simulate_vector 20 (ThreadedSimulator.init andNotCirc .twoVal)
        andNotVec = some thAndNot) ∧
    (((3, HazardKind.static) ∈ thAndNot.2.1) ↔
      3 < (ThreadedSimulator.init andNotCirc .twoVal).num_nets ∧
      thAndNot.2.2.getD 3 0 > 1 ∧
      HazardKind.static =
        (if (ThreadedSimulator.init andNotCirc .twoVal).net_values.getD 3 .X
            = thAndNot.1.net_values.getD 3 .X then HazardKind.static
         else HazardKind.dynamic)) := by
  have h1 : TwoListSimulator.simulate_vector 20 (TwoListSimulator.init andNotCirc .twoVal)
      andNotVec = some (tlAndNot.1, tlAndNot.2.1, tlAndNot.2.2) := rfl
  have h2 : SingleListEventSimulator.simulate_vector 20
      (SingleListEventSimulator.init andNotCirc .twoVal) andNotVec
      = some (sleAndNot.1, sleAndNot.2.1, sleAndNot.2.2) := rfl
  have h3 : SingleListGateSimulator.simulate_vector 20
      (SingleListGateSimulator.init andNotCirc .twoVal) andNotVec
      = some (slgAndNot.1, slgAndNot.2.1, slgAndNot.2.2) := rfl
  have h4 : ThreadedSimulator.simulate_vector 20 (ThreadedSimulator.init andNotCirc .twoVal)
      andNotVec = some (thAndNot.1, thAndNot.2.1, thAndNot.2.2) := rfl
  exact ⟨h1, C7_hazard_reporting.1 20 _ andNotVec tlAndNot.1 tlAndNot.2.1 tlAndNot.2.2 h1 3 .static,
         h2, C7_hazard_reporting.2.1 20 _ andNotVec sleAndNot.1 sleAndNot.2.1 sleAndNot.2.2 h2 3 .static,
         h3, C7_hazard_reporting.2.2.1 20 _ andNotVec slgAndNot.1 slgAndNot.2.1 slgAndNot.2.2 h3 3 .static,
         h4, C7_hazard_reporting.2.2.2 20 _ andNotVec thAndNot.1 thAndNot.2.1 thAndNot.2.2 h4 3 .static⟩

/-! ## Claim C1 -/

/-- C1: the claimed equality between simulator outputs and the
function-level topological evaluation fails.  On the acyclic circuit
`X := AND(A,B)`, `Y := NOT(X)` (primary output `Y` = net 2) in 2-valued
mode, the first `simulate_vector` call with `{A:'0', B:'0'}` completes in
all five simulators with every net — including the primary output `Y` —
left at `'0'`: the `AND`'s recomputed output equals the stored initial `'0'`,
so no event ever reaches the `NOT` gate.  The function-level evaluation of
the same circuit on the same vector gives `Y = '1'`.  (The five simulators
do agree with each other here; they all differ from the functional value.) -/
theorem C1_first_call_outputs_differ_from_functional_eval :
    (TwoListSimulator.simulate_vector 20 (TwoListSimulator.init andNotCirc .twoVal)
        andNotVec = some tlAndNot) ∧
    tlAndNot.1.net_values = [Logic.zero, Logic.zero, Logic.zero, Logic.zero] ∧
    (SingleListEventSimulator.simulate_vector 20
        (SingleListEventSimulator.init andNotCirc .twoVal) andNotVec = some sleAndNot) ∧
    sleAndNot.1.net_values = [Logic.zero, Logic.zero, Logic.zero, Logic.zero] ∧
    (SingleListGateSimulator.simulate_vector 20
        (SingleListGateSimulator.init andNotCirc .twoVal) andNotVec = some slgAndNot) ∧
    slgAndNot.1.net_values = [Logic.zero, Logic.zero, Logic.zero, Logic.zero] ∧
    (ZeroDelaySimulator.simulate_vector 20 (ZeroDelaySimulator.init andNotCirc .twoVal)
        andNotVec = some zdAndNot) ∧
    zdAndNot.1.net_values = [Logic.zero, Logic.zero, Logic.zero, Logic.zero] ∧
    (ThreadedSimulator.simulate_vector 20 (ThreadedSimulator.init andNotCirc .twoVal)
        andNotVec = some thAndNot) ∧
    thAndNot.1.net_values = [Logic.zero, Logic.zero, Logic.zero, Logic.zero] ∧
    func_eval andNotCirc .twoVal (TwoListSimulator.init andNotCirc .twoVal).net_values
        andNotVec = [Logic.zero, Logic.zero, Logic.one, Logic.zero] ∧
    andNotCirc.primary_outputs = [2] ∧
    Logic.zero ≠ Logic.one :=
  ⟨rfl, rfl, rfl, rfl, rfl, rfl, rfl, rfl, rfl, rfl, rfl, rfl, by decide⟩

/-! ## Claim C10: helper lemmas -/

theorem getD_mem_of_lt {α : Type} (l : List α) (i : Nat) (d : α) (h : i < l.length) :
    l.getD i d ∈ l := by
  induction l generalizing i with
  | nil => simp at h
  | cons a rest ih =>
    cases i with
    | zero => exact List.mem_cons_self a rest
    | succ i => exact List.mem_cons_of_mem a (ih i (by simpa using h))

theorem alist_get_mem {α β : Type} [DecidableEq α] (l : List (α × β)) (k : α) (v : β)
    (h : alist_get l k = some v) : (k, v) ∈ l := by
  induction l with
  | nil => cases h
  | cons p rest ih =>
    obtain ⟨a, b⟩ := p
    simp only [alist_get] at h
    by_cases hk : a = k
    · rw [if_pos hk] at h
      injection h with hbv
      subst hk
      subst hbv
      exact List.mem_cons_self _ _
    · rw [if_neg hk] at h
      exact List.mem_cons_of_mem _ (ih h)

theorem bool_val_vec_get (vec : List (Nat × Logic)) (net : Nat) (d : Logic)
    (hvec : bool_vec vec) (hd : bool_val d) : bool_val (vec_get vec net d) := by
  unfold vec_get alist_getD
  cases h : alist_get vec net with
  | none => exact hd
  | some v => exact hvec _ (alist_get_mem vec net v h)

theorem bool_vals_getD (values : List Logic) (i : Nat) (d : Logic)
    (hv : bool_vals values) (hi : i < values.length) :
    bool_val (values.getD i d) :=
  hv _ (getD_mem_of_lt values i d hi)

theorem bool_vals_set (l : List Logic) (i : Nat) (v : Logic) (hv : bool_vals l)
    (h : bool_val v) : bool_vals (l.set i v) := by
  intro x hx
  rcases List.mem_or_eq_of_mem_set hx with hmem | rfl
  · exact hv x hmem
  · exact h

theorem mem_getD_of_lists {α : Type} (l : List (List α)) (i : Nat) (x : α)
    (h : x ∈ l.getD i []) : ∃ q ∈ l, x ∈ q := by
  by_cases hi : i < l.length
  · exact ⟨l.getD i [], getD_mem_of_lt l i [] hi, h⟩
  · rw [List.getD_eq_default] at h
    · cases h
    · omega

theorem fanout_get_wf (fanout : List (Nat × List Gate)) (net n : Nat)
    (hf : ∀ p ∈ fanout, ∀ g ∈ p.2, WFGate g n) :
    ∀ g ∈ fanout_get fanout net, WFGate g n := by
  intro g hg
  unfold fanout_get alist_getD at hg
  cases h : alist_get fanout net with
  | none => rw [h] at hg; cases hg
  | some gs =>
    rw [h] at hg
    exact hf (net, gs) (alist_get_mem fanout net gs h) g hg

/-! Logic primitives preserve 2-valuedness when every read net is in range
and every stored value is 2-valued. -/

theorem bool_val_logic_and (inputs : List Nat) (values : List Logic) (m : LogicModel)
    (hi : ∀ i ∈ inputs, i < values.length) (hv : bool_vals values) :
    bool_val (logic_and inputs values m) := by
  induction inputs with
  | nil => exact Or.inr rfl
  | cons i rest ih =>
    have hval : bool_val (values.getD i .X) :=
      bool_vals_getD values i .X hv (hi i (by simp))
    simp only [logic_and]
    rcases hval with h | h <;> rw [h]
    · simp [bool_val]
    · simpa using ih (fun j hj => hi j (by simp [hj]))

theorem bool_val_logic_or (inputs : List Nat) (values : List Logic) (m : LogicModel)
    (hi : ∀ i ∈ inputs, i < values.length) (hv : bool_vals values) :
    bool_val (logic_or inputs values m) := by
  induction inputs with
  | nil => exact Or.inl rfl
  | cons i rest ih =>
    have hval : bool_val (values.getD i .X) :=
      bool_vals_getD values i .X hv (hi i (by simp))
    simp only [logic_or]
    rcases hval with h | h <;> rw [h]
    · simpa using ih (fun j hj => hi j (by simp [hj]))
    · simp [bool_val]

theorem bool_val_not_single (val : Logic) (m : LogicModel) (h : bool_val val) :
    bool_val (logic_not_single val m) := by
  rcases h with h | h <;> subst h <;> simp [logic_not_single, bool_val]

theorem bool_val_logic_not (i : Nat) (values : List Logic) (m : LogicModel)
    (hi : i < values.length) (hv : bool_vals values) :
    bool_val (logic_not i values m) :=
  bool_val_not_single _ m (bool_vals_getD values i .X hv hi)

theorem bool_val_logic_nand (inputs : List Nat) (values : List Logic) (m : LogicModel)
    (hi : ∀ i ∈ inputs, i < values.length) (hv : bool_vals values) :
    bool_val (logic_nand inputs values m) := by
  have h := bool_val_logic_and inputs values m hi hv
  simp only [logic_nand]
  rcases h with h | h <;> rw [h] <;> simp <;>
    exact bool_val_not_single _ m (by simp [bool_val])

theorem bool_val_logic_nor (inputs : List Nat) (values : List Logic) (m : LogicModel)
    (hi : ∀ i ∈ inputs, i < values.length) (hv : bool_vals values) :
    bool_val (logic_nor inputs values m) := by
  have h := bool_val_logic_or inputs values m hi hv
  simp only [logic_nor]
  rcases h with h | h <;> rw [h] <;> simp <;>
    exact bool_val_not_single _ m (by simp [bool_val])

theorem bool_val_xor_go (values : List Logic) (inputs : List Nat) (ones : Nat)
    (hi : ∀ i ∈ inputs, i < values.length) (hv : bool_vals values) :
    bool_val (logic_xor_go values inputs ones) := by
  induction inputs generalizing ones with
  | nil =>
    simp only [logic_xor_go]
    by_cases h : ones % 2 = 1 <;> simp [h, bool_val]
  | cons i rest ih =>
    have hval : bool_val (values.getD i .X) :=
      bool_vals_getD values i .X hv (hi i (by simp))
    simp only [logic_xor_go]
    rcases hval with h | h <;> rw [h] <;>
      simpa using ih _ (fun j hj => hi j (by simp [hj]))

theorem bool_val_logic_xor (inputs : List Nat) (values : List Logic) (m : LogicModel)
    (hi : ∀ i ∈ inputs, i < values.length) (hv : bool_vals values) :
    bool_val (logic_xor inputs values m) :=
  bool_val_xor_go values inputs 0 hi hv

theorem bool_val_logic_xnor (inputs : List Nat) (values : List Logic) (m : LogicModel)
    (hi : ∀ i ∈ inputs, i < values.length) (hv : bool_vals values) :
    bool_val (logic_xnor inputs values m) := by
  have h := bool_val_logic_xor inputs values m hi hv
  simp only [logic_xnor]
  rcases h with h | h <;> rw [h] <;> simp <;>
    exact bool_val_not_single _ m (by simp [bool_val])

/-- A well-formed gate evaluated on an in-range 2-valued store yields a
2-valued output, in either logic model. -/
theorem bool_val_simulate (g : Gate) (values : List Logic) (m : LogicModel)
    (hg : WFGate g values.length) (hv : bool_vals values) :
    bool_val (g.simulate values m) := by
  obtain ⟨ht, hi, _, hne⟩ := hg
  unfold Gate.simulate
  simp only [GATE_FUNCS_KEYS, List.mem_cons, List.not_mem_nil, or_false] at ht
  rcases ht with h | h | h | h | h | h | h
  · rw [h, if_neg (by decide), if_pos rfl]
    exact bool_val_logic_and g.inputs values m hi hv
  · rw [h, if_neg (by decide), if_neg (by decide), if_pos rfl]
    exact bool_val_logic_or g.inputs values m hi hv
  · rw [h, if_pos rfl]
    cases hins : g.inputs with
    | nil => exact absurd hins hne
    | cons i rest =>
      exact bool_val_logic_not i values m (hi i (by simp [hins])) hv
  · rw [h, if_neg (by decide), if_neg (by decide), if_neg (by decide), if_pos rfl]
    exact bool_val_logic_nand g.inputs values m hi hv
  · rw [h, if_neg (by decide), if_neg (by decide), if_neg (by decide),
      if_neg (by decide), if_pos rfl]
    exact bool_val_logic_nor g.inputs values m hi hv
  · rw [h, if_neg (by decide), if_neg (by decide), if_neg (by decide),
      if_neg (by decide), if_neg (by decide), if_pos rfl]
    exact bool_val_logic_xor g.inputs values m hi hv
  · rw [h, if_neg (by decide), if_neg (by decide), if_neg (by decide),
      if_neg (by decide), if_neg (by decide), if_neg (by decide), if_pos rfl]
    exact bool_val_logic_xnor g.inputs values m hi hv

/-- Output snapshots of an in-range 2-valued store are 2-valued. -/
theorem bool_snapshot (po : List Nat) (values : List Logic) (hv : bool_vals values)
    (hpo : ∀ p ∈ po, p < values.length) :
    ∀ kv ∈ output_snapshot po values, bool_val kv.2 := by
  intro kv hkv
  simp only [output_snapshot, List.mem_map] at hkv
  obtain ⟨nid, hnid, rfl⟩ := hkv
  exact bool_vals_getD values nid .X hv (hpo nid hnid)

/-! ### Two-List 2-valued closure -/

theorem tl_queue_inputs_values_bool (pis : List Nat) (m : LogicModel)
    (vec : List (Nat × Logic)) (values : List Logic) (marks : List Bool)
    (hpi : ∀ p ∈ pis, p < values.length) (hvec : bool_vec vec)
    (hv : bool_vals values) :
    ∀ e ∈ (tl_queue_inputs pis m vec values marks).1, bool_val e.value := by
  induction pis generalizing marks with
  | nil => intro e he; cases he
  | cons net rest ih =>
    intro e he
    have hval : bool_val (vec_get vec net (values.getD net .X)) :=
      bool_val_vec_get vec net _ hvec (bool_vals_getD values net .X hv (hpi net (by simp)))
    have hrest : ∀ p ∈ rest, p < values.length := fun p hp => hpi p (by simp [hp])
    simp only [tl_queue_inputs] at he
    split at he
    · split at he
      · dsimp only at he
        rcases List.mem_cons.mp he with rfl | he'
        · exact hval
        · exact ih (marks.set net false) hrest e he'
      · exact ih marks hrest e he
    · split at he
      · dsimp only at he
        rcases List.mem_cons.mp he with rfl | he'
        · exact hval
        · exact ih marks hrest e he'
      · exact ih marks hrest e he

theorem tl_drain_events_inv (fanout : List (Nat × List Gate)) (events : List Event)
    (values : List Logic) (counts : List Nat) (gq : List Gate) (n : Nat)
    (hf : ∀ p ∈ fanout, ∀ g ∈ p.2, WFGate g n)
    (hlen : values.length = n) (hv : bool_vals values)
    (he : ∀ e ∈ events, bool_val e.value) (hgq : ∀ g ∈ gq, WFGate g n) :
    (tl_drain_events fanout events values counts gq).1.length = n ∧
    bool_vals (tl_drain_events fanout events values counts gq).1 ∧
    (∀ g ∈ (tl_drain_events fanout events values counts gq).2.2, WFGate g n) := by
  induction events generalizing values counts gq with
  | nil => exact ⟨hlen, hv, hgq⟩
  | cons ev rest ih =>
    have hev : bool_val ev.value := he ev (by simp)
    have hrest : ∀ e ∈ rest, bool_val e.value := fun e he' => he e (by simp [he'])
    simp only [tl_drain_events]
    apply ih
    · by_cases hc : ev.value ≠ values.getD ev.net .X
      · rw [if_pos hc]; simpa using hlen
      · rw [if_neg hc]; exact hlen
    · by_cases hc : ev.value ≠ values.getD ev.net .X
      · rw [if_pos hc]; exact bool_vals_set values ev.net ev.value hv hev
      · rw [if_neg hc]; exact hv
    · exact hrest
    · apply foldl_invariant (fun q => ∀ g ∈ q, WFGate g n)
      · exact hgq
      · intro b a ha hb g hg
        by_cases hmem : a ∈ b
        · rw [if_pos hmem] at hg; exact hb g hg
        · rw [if_neg hmem] at hg
          rcases List.mem_append.mp hg with hg' | hg'
          · exact hb g hg'
          · rw [List.mem_singleton.mp hg']
            exact fanout_get_wf fanout ev.net n hf a ha

theorem tl_drain_gates_inv (gates : List Gate) (values : List Logic) (m : LogicModel)
    (sc : Nat) (eq : List Event) (n : Nat)
    (hg : ∀ g ∈ gates, WFGate g n) (hlen : values.length = n)
    (hv : bool_vals values) (he : ∀ e ∈ eq, bool_val e.value) :
    ∀ e ∈ (tl_drain_gates gates values m sc eq).2, bool_val e.value := by
  induction gates generalizing sc eq with
  | nil => exact he
  | cons g rest ih =>
    have hgw : WFGate g values.length := by rw [hlen]; exact hg g (by simp)
    have hrest : ∀ g' ∈ rest, WFGate g' n := fun g' hg' => hg g' (by simp [hg'])
    simp only [tl_drain_gates]
    refine ih _ _ hrest ?_
    intro e he'
    by_cases hc : g.simulate values m ≠ values.getD g.output .X
    · rw [if_pos hc] at he'
      rcases List.mem_append.mp he' with h' | h'
      · exact he e h'
      · rw [List.mem_singleton.mp h']
        exact bool_val_simulate g values m hgw hv
    · rw [if_neg hc] at he'
      exact he e he'

theorem tl_loop_inv (circ : Circuit) (m : LogicModel) (fuel : Nat) (eq : List Event)
    (values : List Logic) (counts : List Nat) (sc tu : Nat)
    (ilog : List (Nat × List (Nat × Logic))) (n : Nat)
    (r : List Logic × List Nat × Nat × Nat × List (Nat × List (Nat × Logic)))
    (hf : ∀ p ∈ circ.fanout, ∀ g ∈ p.2, WFGate g n)
    (hlen : values.length = n) (hv : bool_vals values)
    (he : ∀ e ∈ eq, bool_val e.value)
    (h : tl_loop circ m fuel eq values counts sc tu ilog = some r) :
    r.1.length = n ∧ bool_vals r.1 := by
  induction fuel generalizing eq values counts sc tu ilog with
  | zero => cases h
  | succ fuel ih =>
    simp only [tl_loop] at h
    by_cases heq : eq = []
    · rw [if_pos heq] at h
      injection h with h'
      subst h'
      exact ⟨hlen, hv⟩
    · rw [if_neg heq] at h
      obtain ⟨hlen', hv', hgq'⟩ := tl_drain_events_inv circ.fanout eq values counts [] n
        hf hlen hv he (fun g hg => absurd hg (List.not_mem_nil g))
      by_cases hgq : (tl_drain_events circ.fanout eq values counts []).2.2 = []
      · rw [if_pos hgq] at h
        exact ih [] _ _ sc tu ilog hlen' hv'
          (fun e he' => absurd he' (List.not_mem_nil e)) h
      · rw [if_neg hgq] at h
        exact ih _ _ _ _ _ _ hlen' hv'
          (tl_drain_gates_inv _ _ m sc [] n hgq' hlen' hv'
            (fun e he' => absurd he' (List.not_mem_nil e))) h

theorem tl_simulate_vector_inv (fuel : Nat) (s : TwoListSimulator)
    (vec : List (Nat × Logic)) (r : TwoListSimulator × List (Nat × HazardKind) × List Nat)
    (hw : WFCirc s.circuit) (hnum : s.num_nets = s.circuit.next_net_id)
    (hlen : s.net_values.length = s.circuit.next_net_id)
    (hv : bool_vals s.net_values) (hlog : bool_log s.output_log) (hvec : bool_vec vec)
    (h : TwoListSimulator.simulate_vector fuel s vec = some r) :
    r.1.circuit = s.circuit ∧ r.1.num_nets = s.num_nets ∧
    r.1.net_values.length = s.circuit.next_net_id ∧
    bool_vals r.1.net_values ∧ bool_log r.1.output_log := by
  obtain ⟨hg, hf, hpi, hpo⟩ := hw
  simp only [TwoListSimulator.simulate_vector] at h
  split at h
  · exact Option.noConfusion h
  · rename_i values counts sc tu ilog heq
    have hev : ∀ e ∈ (tl_queue_inputs s.circuit.primary_inputs s.logic_model vec
        s.net_values s.net_mark).1, bool_val e.value :=
      tl_queue_inputs_values_bool _ _ vec _ _
        (fun p hp => by rw [hlen]; exact hpi p hp) hvec hv
    obtain ⟨hlen', hv'⟩ := tl_loop_inv s.circuit s.logic_model fuel _ _ _ 0 0 []
      s.circuit.next_net_id _ hf hlen hv hev heq
    injection h with h'
    subst h'
    refine ⟨rfl, rfl, hlen', hv', ?_⟩
    intro entry hentry
    rcases List.mem_append.mp hentry with h' | h'
    · exact hlog entry h'
    · rw [List.mem_singleton.mp h']
      exact bool_snapshot s.circuit.primary_outputs values hv'
        (fun p hp => lt_of_lt_of_eq (hpo p hp) hlen'.symm)

theorem tl_run_vectors_inv (fuel : Nat) (vecs : List (List (Nat × Logic)))
    (s s' : TwoListSimulator)
    (hw : WFCirc s.circuit) (hnum : s.num_nets = s.circuit.next_net_id)
    (hlen : s.net_values.length = s.circuit.next_net_id)
    (hv : bool_vals s.net_values) (hlog : bool_log s.output_log)
    (hvecs : ∀ vec ∈ vecs, bool_vec vec)
    (h : TwoListSimulator.run_vectors fuel s vecs = some s') :
    bool_vals s'.net_values ∧ bool_log s'.output_log := by
  induction vecs generalizing s with
  | nil =>
    simp only [TwoListSimulator.run_vectors] at h
    injection h with h'
    subst h'
    exact ⟨hv, hlog⟩
  | cons vec rest ih =>
    simp only [TwoListSimulator.run_vectors] at h
    split at h
    · exact Option.noConfusion h
    · rename_i s1 hz counts heq
      obtain ⟨hc, hn, hl, hb, hlg⟩ := tl_simulate_vector_inv fuel s vec (s1, hz, counts)
        hw hnum hlen hv hlog (hvecs vec (by simp)) heq
      exact ih s1 (by rw [hc]; exact hw) (by rw [hn, hc]; exact hnum)
        (by rw [hc]; exact hl) hb hlg
        (fun v hv' => hvecs v (by simp [hv'])) h

/-! ### Single-List Event 2-valued closure -/

theorem sle_fanout_gates_inv (gates : List Gate) (values : List Logic) (m : LogicModel)
    (sc : Nat) (queue : List SLEItem) (n : Nat)
    (hg : ∀ g ∈ gates, WFGate g n) (hlen : values.length = n) (hv : bool_vals values)
    (hq : ∀ i ∈ queue, sle_item_bool i) :
    ∀ i ∈ (sle_fanout_gates gates values m sc queue).2, sle_item_bool i := by
  induction gates generalizing sc queue with
  | nil => exact hq
  | cons g rest ih =>
    have hgw : WFGate g values.length := by rw [hlen]; exact hg g (by simp)
    have hrest : ∀ g' ∈ rest, WFGate g' n := fun g' h' => hg g' (by simp [h'])
    simp only [sle_fanout_gates]
    refine ih _ _ hrest ?_
    intro i hi
    by_cases hc : g.simulate values m ≠ values.getD g.output .X
    · rw [if_pos hc] at hi
      by_cases hdup : SLEItem.ev g.output (g.simulate values m) ∈ queue
      · rw [if_pos hdup] at hi
        exact hq i hi
      · rw [if_neg hdup] at hi
        rcases List.mem_append.mp hi with h' | h'
        · exact hq i h'
        · rw [List.mem_singleton.mp h']
          exact bool_val_simulate g values m hgw hv
    · rw [if_neg hc] at hi
      exact hq i hi

theorem sle_loop_inv (circ : Circuit) (m : LogicModel) (fuel : Nat)
    (queue : List SLEItem) (values : List Logic) (counts : List Nat) (sc tu : Nat)
    (ilog : List (Nat × List (Nat × Logic))) (n : Nat)
    (r : List Logic × List Nat × Nat × Nat × List (Nat × List (Nat × Logic)))
    (hf : ∀ p ∈ circ.fanout, ∀ g ∈ p.2, WFGate g n)
    (hlen : values.length = n) (hv : bool_vals values)
    (hq : ∀ i ∈ queue, sle_item_bool i)
    (h : sle_loop circ m fuel queue values counts sc tu ilog = some r) :
    r.1.length = n ∧ bool_vals r.1 := by
  induction fuel generalizing queue values counts sc tu ilog with
  | zero => cases h
  | succ fuel ih =>
    simp only [sle_loop] at h
    split at h
    · injection h with h'
      subst h'
      exact ⟨hlen, hv⟩
    · rename_i rest
      refine ih _ _ _ _ _ _ hlen hv ?_ h
      intro i hi
      by_cases hrest : rest = []
      · rw [if_pos hrest] at hi
        exact hq i (List.mem_cons_of_mem _ hi)
      · rw [if_neg hrest] at hi
        rcases List.mem_append.mp hi with h' | h'
        · exact hq i (List.mem_cons_of_mem _ h')
        · rw [List.mem_singleton.mp h']
          trivial
    · rename_i net_id new_val rest
      have hval : bool_val new_val :=
        hq (SLEItem.ev net_id new_val) (by simp)
      have hrest : ∀ i ∈ rest, sle_item_bool i := fun i hi => hq i (by simp [hi])
      have hlen' : (if new_val ≠ values.getD net_id .X then
          (values.set net_id new_val, counts.set net_id (counts.getD net_id 0 + 1))
          else (values, counts)).1.length = n := by
        by_cases hc : new_val ≠ values.getD net_id .X
        · rw [if_pos hc]; simpa using hlen
        · rw [if_neg hc]; exact hlen
      have hv' : bool_vals (if new_val ≠ values.getD net_id .X then
          (values.set net_id new_val, counts.set net_id (counts.getD net_id 0 + 1))
          else (values, counts)).1 := by
        by_cases hc : new_val ≠ values.getD net_id .X
        · rw [if_pos hc]; exact bool_vals_set values net_id new_val hv hval
        · rw [if_neg hc]; exact hv
      refine ih _ _ _ _ _ _ hlen' hv' ?_ h
      exact sle_fanout_gates_inv (fanout_get circ.fanout net_id) _ m sc rest n
        (fanout_get_wf circ.fanout net_id n hf) hlen' hv' hrest

theorem sle_simulate_vector_inv (fuel : Nat) (s : SingleListEventSimulator)
    (vec : List (Nat × Logic))
    (r : SingleListEventSimulator × List (Nat × HazardKind) × List Nat)
    (hw : WFCirc s.circuit) (hnum : s.num_nets = s.circuit.next_net_id)
    (hlen : s.net_values.length = s.circuit.next_net_id)
    (hv : bool_vals s.net_values) (hlog : bool_log s.output_log) (hvec : bool_vec vec)
    (h : SingleListEventSimulator.simulate_vector fuel s vec = some r) :
    r.1.circuit = s.circuit ∧ r.1.num_nets = s.num_nets ∧
    r.1.net_values.length = s.circuit.next_net_id ∧
    bool_vals r.1.net_values ∧ bool_log r.1.output_log := by
  obtain ⟨hg, hf, hpi, hpo⟩ := hw
  simp only [SingleListEventSimulator.simulate_vector] at h
  split at h
  · exact Option.noConfusion h
  · rename_i values counts sc tu ilog heq
    have hev : ∀ e ∈ (tl_queue_inputs s.circuit.primary_inputs s.logic_model vec
        s.net_values s.net_mark).1, bool_val e.value :=
      tl_queue_inputs_values_bool _ _ vec _ _
        (fun p hp => by rw [hlen]; exact hpi p hp) hvec hv
    have hq : ∀ i ∈ ((tl_queue_inputs s.circuit.primary_inputs s.logic_model vec
        s.net_values s.net_mark).1.map (fun e => SLEItem.ev e.net e.value))
          ++ [SLEItem.marker], sle_item_bool i := by
      intro i hi
      rcases List.mem_append.mp hi with h' | h'
      · obtain ⟨e, he, rfl⟩ := List.mem_map.mp h'
        exact hev e he
      · rw [List.mem_singleton.mp h']
        trivial
    obtain ⟨hlen', hv'⟩ := sle_loop_inv s.circuit s.logic_model fuel _ _ _ 0 0 []
      s.circuit.next_net_id _ hf hlen hv hq heq
    injection h with h'
    subst h'
    refine ⟨rfl, rfl, hlen', hv', ?_⟩
    intro entry hentry
    rcases List.mem_append.mp hentry with h' | h'
    · exact hlog entry h'
    · rw [List.mem_singleton.mp h']
      exact bool_snapshot s.circuit.primary_outputs values hv'
        (fun p hp => lt_of_lt_of_eq (hpo p hp) hlen'.symm)

theorem sle_run_vectors_inv (fuel : Nat) (vecs : List (List (Nat × Logic)))
    (s s' : SingleListEventSimulator)
    (hw : WFCirc s.circuit) (hnum : s.num_nets = s.circuit.next_net_id)
    (hlen : s.net_values.length = s.circuit.next_net_id)
    (hv : bool_vals s.net_values) (hlog : bool_log s.output_log)
    (hvecs : ∀ vec ∈ vecs, bool_vec vec)
    (h : SingleListEventSimulator.run_vectors fuel s vecs = some s') :
    bool_vals s'.net_values ∧ bool_log s'.output_log := by
  induction vecs generalizing s with
  | nil =>
    simp only [SingleListEventSimulator.run_vectors] at h
    injection h with h'
    subst h'
    exact ⟨hv, hlog⟩
  | cons vec rest ih =>
    simp only [SingleListEventSimulator.run_vectors] at h
    split at h
    · exact Option.noConfusion h
    · rename_i s1 hz counts heq
      obtain ⟨hc, hn, hl, hb, hlg⟩ := sle_simulate_vector_inv fuel s vec (s1, hz, counts)
        hw hnum hlen hv hlog (hvecs vec (by simp)) heq
      exact ih s1 (by rw [hc]; exact hw) (by rw [hn, hc]; exact hnum)
        (by rw [hc]; exact hl) hb hlg
        (fun v hv' => hvecs v (by simp [hv'])) h

/-! ### Single-List Gate 2-valued closure -/

theorem temp_set_mem (t : List (Nat × Logic)) (nn : Nat) (v : Logic) (kv : Nat × Logic)
    (h : kv ∈ temp_set t nn v) : kv ∈ t ∨ kv = (nn, v) := by
  induction t with
  | nil => exact Or.inr (List.mem_singleton.mp h)
  | cons p rest ih =>
    obtain ⟨k, w⟩ := p
    simp only [temp_set] at h
    by_cases hk : k = nn
    · rw [if_pos hk] at h
      rcases List.mem_cons.mp h with rfl | h'
      · exact Or.inr (by rw [hk])
      · exact Or.inl (List.mem_cons_of_mem _ h')
    · rw [if_neg hk] at h
      rcases List.mem_cons.mp h with rfl | h'
      · exact Or.inl (by simp)
      · rcases ih h' with h'' | h''
        · exact Or.inl (List.mem_cons_of_mem _ h'')
        · exact Or.inr h''

theorem slg_commit_inputs_inv (pis : List Nat) (vec : List (Nat × Logic))
    (values : List Logic) (n : Nat) (hvec : bool_vec vec) (hpi : ∀ p ∈ pis, p < n)
    (hlen : values.length = n) (hv : bool_vals values) :
    (slg_commit_inputs pis vec values).1.length = n ∧
    bool_vals (slg_commit_inputs pis vec values).1 := by
  unfold slg_commit_inputs
  refine foldl_invariant
    (fun acc : List Logic × List Nat => acc.1.length = n ∧ bool_vals acc.1)
    _ pis (values, []) ⟨hlen, hv⟩ ?_
  intro b a ha hb
  obtain ⟨bv, bl⟩ := b
  obtain ⟨hbl, hbb⟩ := hb
  dsimp only
  by_cases hc : vec_get vec a (bv.getD a .X) ≠ bv.getD a .X
  · rw [if_pos hc]
    refine ⟨by simpa using hbl, bool_vals_set bv a _ hbb ?_⟩
    exact bool_val_vec_get vec a _ hvec
      (bool_vals_getD bv a .X hbb (by rw [hbl]; exact hpi a ha))
  · rw [if_neg hc]
    exact ⟨hbl, hbb⟩

theorem slg_commit_temp_inv (temp : List (Nat × Logic)) (values : List Logic)
    (counts : List Nat) (n : Nat) (htemp : ∀ kv ∈ temp, bool_val kv.2)
    (hlen : values.length = n) (hv : bool_vals values) :
    (slg_commit_temp temp values counts).1.length = n ∧
    bool_vals (slg_commit_temp temp values counts).1 := by
  unfold slg_commit_temp
  refine foldl_invariant
    (fun acc : List Logic × List Nat => acc.1.length = n ∧ bool_vals acc.1)
    _ temp (values, counts) ⟨hlen, hv⟩ ?_
  intro b a ha hb
  obtain ⟨bv, bc⟩ := b
  obtain ⟨hbl, hbb⟩ := hb
  dsimp only
  by_cases hc : a.2 ≠ bv.getD a.1 .X
  · rw [if_pos hc]
    exact ⟨by simpa using hbl, bool_vals_set bv a.1 a.2 hbb (htemp a ha)⟩
  · rw [if_neg hc]
    exact ⟨hbl, hbb⟩

theorem slg_loop_inv (circ : Circuit) (m : LogicModel) (fuel : Nat)
    (queue : List SLGItem) (values : List Logic) (counts : List Nat)
    (temp : List (Nat × Logic)) (flagged : List Gate) (sc tu : Nat)
    (ilog : List (Nat × List (Nat × Logic))) (n : Nat)
    (r : List Logic × List Nat × Nat × Nat × List (Nat × List (Nat × Logic)))
    (hf : ∀ p ∈ circ.fanout, ∀ g ∈ p.2, WFGate g n)
    (hlen : values.length = n) (hv : bool_vals values)
    (hq : ∀ i ∈ queue, slg_item_wf n i) (htemp : ∀ kv ∈ temp, bool_val kv.2)
    (h : slg_loop circ m fuel queue values counts temp flagged sc tu ilog = some r) :
    r.1.length = n ∧ bool_vals r.1 := by
  induction fuel generalizing queue values counts temp flagged sc tu ilog with
  | zero => cases h
  | succ fuel ih =>
    simp only [slg_loop] at h
    split at h
    · injection h with h'
      subst h'
      exact ⟨hlen, hv⟩
    · rename_i rest
      obtain ⟨hlen', hv'⟩ := slg_commit_temp_inv temp values counts n htemp hlen hv
      refine ih _ _ _ _ _ _ _ _ hlen' hv' ?_ ?_ h
      · intro i hi
        by_cases hrest : rest = []
        · rw [if_pos hrest] at hi
          exact hq i (List.mem_cons_of_mem _ hi)
        · rw [if_neg hrest] at hi
          rcases List.mem_append.mp hi with h' | h'
          · exact hq i (List.mem_cons_of_mem _ h')
          · rw [List.mem_singleton.mp h']
            trivial
      · intro kv hkv
        cases hkv
    · rename_i g rest
      have hgw : WFGate g values.length := by
        rw [hlen]
        exact hq (SLGItem.gate g) (by simp)
      have hrest : ∀ i ∈ rest, slg_item_wf n i := fun i hi => hq i (by simp [hi])
      refine ih _ _ _ _ _ _ _ _ hlen hv ?_ ?_ h
      · intro i hi
        by_cases hc : g.simulate values m ≠ values.getD g.output .X
        · rw [if_pos hc] at hi
          dsimp only at hi
          refine foldl_invariant
            (fun acc : List SLGItem × List Gate => ∀ j ∈ acc.1, slg_item_wf n j)
            (fun acc h' => if h' ∈ acc.2 then acc
              else (acc.1 ++ [SLGItem.gate h'], acc.2 ++ [h']))
            (fanout_get circ.fanout g.output) (rest, flagged) hrest ?_ i hi
          intro b a ha hb j hj
          dsimp only at hj
          by_cases hmem : a ∈ b.2
          · rw [if_pos hmem] at hj
            exact hb j hj
          · rw [if_neg hmem] at hj
            dsimp only at hj
            rcases List.mem_append.mp hj with h' | h'
            · exact hb j h'
            · rw [List.mem_singleton.mp h']
              exact fanout_get_wf circ.fanout g.output n hf a ha
        · rw [if_neg hc] at hi
          exact hrest i hi
      · intro kv hkv
        by_cases hc : g.simulate values m ≠ values.getD g.output .X
        · rw [if_pos hc] at hkv
          dsimp only at hkv
          rcases temp_set_mem temp g.output (g.simulate values m) kv hkv with h' | h'
          · exact htemp kv h'
          · rw [h']
            exact bool_val_simulate g values m hgw hv
        · rw [if_neg hc] at hkv
          exact htemp kv hkv

theorem slg_simulate_vector_inv (fuel : Nat) (s : SingleListGateSimulator)
    (vec : List (Nat × Logic))
    (r : SingleListGateSimulator × List (Nat × HazardKind) × List Nat)
    (hw : WFCirc s.circuit) (hnum : s.num_nets = s.circuit.next_net_id)
    (hlen : s.net_values.length = s.circuit.next_net_id)
    (hv : bool_vals s.net_values) (hlog : bool_log s.output_log) (hvec : bool_vec vec)
    (h : SingleListGateSimulator.simulate_vector fuel s vec = some r) :
    r.1.circuit = s.circuit ∧ r.1.num_nets = s.num_nets ∧
    r.1.net_values.length = s.circuit.next_net_id ∧
    bool_vals r.1.net_values ∧ bool_log r.1.output_log := by
  obtain ⟨hg, hf, hpi, hpo⟩ := hw
  simp only [SingleListGateSimulator.simulate_vector] at h
  split at h
  · exact Option.noConfusion h
  · rename_i values counts sc tu ilog heq
    obtain ⟨hlenc, hvc⟩ := slg_commit_inputs_inv s.circuit.primary_inputs vec
      s.net_values s.circuit.next_net_id hvec hpi hlen hv
    have hq : ∀ i ∈ ((slg_commit_inputs s.circuit.primary_inputs vec s.net_values).2.foldl
        (fun q net => q ++ (fanout_get s.circuit.fanout net).map SLGItem.gate) [])
          ++ [SLGItem.marker], slg_item_wf s.circuit.next_net_id i := by
      intro i hi
      rcases List.mem_append.mp hi with h' | h'
      · refine foldl_invariant
          (fun q : List SLGItem => ∀ j ∈ q, slg_item_wf s.circuit.next_net_id j)
          (fun q net => q ++ (fanout_get s.circuit.fanout net).map SLGItem.gate)
          (slg_commit_inputs s.circuit.primary_inputs vec s.net_values).2 []
          (fun j hj' => absurd hj' (List.not_mem_nil j)) ?_ i h'
        intro b a ha hb j hj
        rcases List.mem_append.mp hj with h'' | h''
        · exact hb j h''
        · obtain ⟨g', hg', rfl⟩ := List.mem_map.mp h''
          exact fanout_get_wf s.circuit.fanout a s.circuit.next_net_id hf g' hg'
      · rw [List.mem_singleton.mp h']
        trivial
    obtain ⟨hlen', hv'⟩ := slg_loop_inv s.circuit s.logic_model fuel _ _ _ [] [] 0 0 []
      s.circuit.next_net_id _ hf hlenc hvc hq
      (fun kv hkv => absurd hkv (List.not_mem_nil kv)) heq
    injection h with h'
    subst h'
    refine ⟨rfl, rfl, hlen', hv', ?_⟩
    intro entry hentry
    rcases List.mem_append.mp hentry with h' | h'
    · exact hlog entry h'
    · rw [List.mem_singleton.mp h']
      exact bool_snapshot s.circuit.primary_outputs values hv'
        (fun p hp => lt_of_lt_of_eq (hpo p hp) hlen'.symm)

theorem slg_run_vectors_inv (fuel : Nat) (vecs : List (List (Nat × Logic)))
    (s s' : SingleListGateSimulator)
    (hw : WFCirc s.circuit) (hnum : s.num_nets = s.circuit.next_net_id)
    (hlen : s.net_values.length = s.circuit.next_net_id)
    (hv : bool_vals s.net_values) (hlog : bool_log s.output_log)
    (hvecs : ∀ vec ∈ vecs, bool_vec vec)
    (h : SingleListGateSimulator.run_vectors fuel s vecs = some s') :
    bool_vals s'.net_values ∧ bool_log s'.output_log := by
  induction vecs generalizing s with
  | nil =>
    simp only [SingleListGateSimulator.run_vectors] at h
    injection h with h'
    subst h'
    exact ⟨hv, hlog⟩
  | cons vec rest ih =>
    simp only [SingleListGateSimulator.run_vectors] at h
    split at h
    · exact Option.noConfusion h
    · rename_i s1 hz counts heq
      obtain ⟨hc, hn, hl, hb, hlg⟩ := slg_simulate_vector_inv fuel s vec (s1, hz, counts)
        hw hnum hlen hv hlog (hvecs vec (by simp)) heq
      exact ih s1 (by rw [hc]; exact hw) (by rw [hn, hc]; exact hnum)
        (by rw [hc]; exact hl) hb hlg
        (fun v hv' => hvecs v (by simp [hv'])) h

/-! ### Zero-Delay 2-valued closure -/

theorem zd_queues_set_wf (queues : List (List Gate)) (lvl : Nat) (g : Gate) (n : Nat)
    (hq : ∀ q ∈ queues, ∀ g' ∈ q, WFGate g' n) (hg : WFGate g n) :
    ∀ q ∈ queues.set lvl (queues.getD lvl [] ++ [g]), ∀ g' ∈ q, WFGate g' n := by
  intro q hq' g' hg'
  rcases List.mem_or_eq_of_mem_set hq' with hmem | rfl
  · exact hq q hmem g' hg'
  · rcases List.mem_append.mp hg' with h' | h'
    · obtain ⟨q', hq'', hmem'⟩ := mem_getD_of_lists queues lvl g' h'
      exact hq q' hq'' g' hmem'
    · rw [List.mem_singleton.mp h']
      exact hg

theorem zd_schedule_inputs_inv (circ : Circuit) (levels : List (Nat × Nat))
    (vec : List (Nat × Logic)) (values : List Logic) (queues : List (List Gate))
    (n : Nat) (hf : ∀ p ∈ circ.fanout, ∀ g ∈ p.2, WFGate g n)
    (hpi : ∀ p ∈ circ.primary_inputs, p < n) (hvec : bool_vec vec)
    (hlen : values.length = n) (hv : bool_vals values)
    (hq : ∀ q ∈ queues, ∀ g ∈ q, WFGate g n) :
    (zd_schedule_inputs circ levels vec values queues).1.length = n ∧
    bool_vals (zd_schedule_inputs circ levels vec values queues).1 ∧
    (∀ q ∈ (zd_schedule_inputs circ levels vec values queues).2, ∀ g ∈ q, WFGate g n) := by
  unfold zd_schedule_inputs
  refine foldl_invariant
    (fun acc : List Logic × List (List Gate) =>
      acc.1.length = n ∧ bool_vals acc.1 ∧ ∀ q ∈ acc.2, ∀ g ∈ q, WFGate g n)
    _ circ.primary_inputs (values, queues) ⟨hlen, hv, hq⟩ ?_
  intro b a ha hb
  obtain ⟨bv, bq⟩ := b
  obtain ⟨hbl, hbb, hbq⟩ := hb
  dsimp only
  by_cases hc : vec_get vec a (bv.getD a .X) ≠ bv.getD a .X
  · rw [if_pos hc]
    refine ⟨by simpa using hbl,
      bool_vals_set bv a _ hbb (bool_val_vec_get vec a _ hvec
        (bool_vals_getD bv a .X hbb (by rw [hbl]; exact hpi a ha))), ?_⟩
    refine foldl_invariant
      (fun qs : List (List Gate) => ∀ q ∈ qs, ∀ g ∈ q, WFGate g n)
      _ (fanout_get circ.fanout a) bq hbq ?_
    intro qs g hg hqs
    dsimp only
    by_cases hmem : g ∈ qs.getD (alist_getD levels g.id 0) []
    · rw [if_pos hmem]
      exact hqs
    · rw [if_neg hmem]
      exact zd_queues_set_wf qs (alist_getD levels g.id 0) g n hqs
        (fanout_get_wf circ.fanout a n hf g hg)
  · rw [if_neg hc]
    exact ⟨hbl, hbb, hbq⟩

theorem zd_drain_level_inv (circ : Circuit) (m : LogicModel) (levels : List (Nat × Nat))
    (fuel lvl : Nat) (queues : List (List Gate)) (values : List Logic)
    (sc : Nat) (it : Bool) (n : Nat) (r : List (List Gate) × List Logic × Nat × Bool)
    (hf : ∀ p ∈ circ.fanout, ∀ g ∈ p.2, WFGate g n)
    (hq : ∀ q ∈ queues, ∀ g ∈ q, WFGate g n)
    (hlen : values.length = n) (hv : bool_vals values)
    (h : zd_drain_level circ m levels fuel lvl queues values sc it = some r) :
    (∀ q ∈ r.1, ∀ g ∈ q, WFGate g n) ∧ r.2.1.length = n ∧ bool_vals r.2.1 := by
  induction fuel generalizing queues values sc it with
  | zero => cases h
  | succ fuel ih =>
    simp only [zd_drain_level] at h
    split at h
    · injection h with h'
      subst h'
      exact ⟨hq, hlen, hv⟩
    · rename_i g rest heq
      have hgw : WFGate g n := by
        obtain ⟨q', hq', hm⟩ := mem_getD_of_lists queues lvl g (by rw [heq]; simp)
        exact hq q' hq' g hm
      have hq1 : ∀ q ∈ queues.set lvl rest, ∀ g' ∈ q, WFGate g' n := by
        intro q hq' g' hg'
        rcases List.mem_or_eq_of_mem_set hq' with hmem | rfl
        · exact hq q hmem g' hg'
        · obtain ⟨q', hq'', hm⟩ :=
            mem_getD_of_lists queues lvl g' (by rw [heq]; simp [hg'])
          exact hq q' hq'' g' hm
      by_cases hc : g.simulate values m ≠ values.getD g.output .X
      · rw [if_pos hc] at h
        refine ih _ _ _ _ ?_ ?_ ?_ h
        · refine foldl_invariant
            (fun acc : List (List Gate) × Bool => ∀ q ∈ acc.1, ∀ g' ∈ q, WFGate g' n)
            _ (fanout_get circ.fanout g.output) (queues.set lvl rest, it) hq1 ?_
          intro b a ha hb
          dsimp only
          by_cases hmem : a ∈ b.1.getD (alist_getD levels a.id 0) []
          · rw [if_pos hmem]
            exact hb
          · rw [if_neg hmem]
            exact zd_queues_set_wf b.1 (alist_getD levels a.id 0) a n hb
              (fanout_get_wf circ.fanout g.output n hf a ha)
        · simpa using hlen
        · exact bool_vals_set values g.output _ hv
            (bool_val_simulate g values m (by rw [hlen]; exact hgw) hv)
      · rw [if_neg hc] at h
        exact ih _ _ _ _ hq1 hlen hv h

theorem zd_run_levels_inv (circ : Circuit) (m : LogicModel) (levels : List (Nat × Nat))
    (fuel : Nat) (lvls : List Nat) (queues : List (List Gate)) (values : List Logic)
    (sc : Nat) (it : Bool) (n : Nat) (r : List (List Gate) × List Logic × Nat × Bool)
    (hf : ∀ p ∈ circ.fanout, ∀ g ∈ p.2, WFGate g n)
    (hq : ∀ q ∈ queues, ∀ g ∈ q, WFGate g n)
    (hlen : values.length = n) (hv : bool_vals values)
    (h : zd_run_levels circ m levels fuel lvls queues values sc it = some r) :
    (∀ q ∈ r.1, ∀ g ∈ q, WFGate g n) ∧ r.2.1.length = n ∧ bool_vals r.2.1 := by
  induction lvls generalizing queues values sc it with
  | nil =>
    simp only [zd_run_levels] at h
    injection h with h'
    subst h'
    exact ⟨hq, hlen, hv⟩
  | cons lvl rest ih =>
    simp only [zd_run_levels] at h
    split at h
    · exact Option.noConfusion h
    · rename_i q1 v1 c1 i1 heq
      obtain ⟨hq1, hlen1, hv1⟩ :=
        zd_drain_level_inv circ m levels fuel lvl queues values sc it n
          (q1, v1, c1, i1) hf hq hlen hv heq
      exact ih q1 v1 c1 i1 hq1 hlen1 hv1 h

theorem zd_simulate_vector_inv (fuel : Nat) (s : ZeroDelaySimulator)
    (vec : List (Nat × Logic)) (r : ZeroDelaySimulator × List (Nat × HazardKind))
    (hw : WFCirc s.circuit) (hnum : s.num_nets = s.circuit.next_net_id)
    (hlen : s.net_values.length = s.circuit.next_net_id)
    (hv : bool_vals s.net_values) (hlog : bool_log s.output_log) (hvec : bool_vec vec)
    (h : ZeroDelaySimulator.simulate_vector fuel s vec = some r) :
    r.1.circuit = s.circuit ∧ r.1.num_nets = s.num_nets ∧
    r.1.net_values.length = s.circuit.next_net_id ∧
    bool_vals r.1.net_values ∧ bool_log r.1.output_log := by
  obtain ⟨hg, hf, hpi, hpo⟩ := hw
  obtain ⟨hlen0, hv0, hq0⟩ := zd_schedule_inputs_inv s.circuit s.levels vec s.net_values
    (List.replicate (s.max_level + 1) []) s.circuit.next_net_id hf hpi hvec hlen hv
    (fun q hq' g hg' => absurd (mem_replicate_eq hq' ▸ hg') (List.not_mem_nil g))
  simp only [ZeroDelaySimulator.simulate_vector] at h
  split at h
  · exact Option.noConfusion h
  · rename_i q1 v1 c1 i1 heq
    obtain ⟨hq1, hlen1, hv1⟩ := zd_run_levels_inv s.circuit s.logic_model s.levels fuel
      _ _ _ 0 false s.circuit.next_net_id (q1, v1, c1, i1) hf hq0 hlen0 hv0 heq
    split at h
    · exact Option.noConfusion h
    · rename_i q2 v2 c2 i2 heq2
      have hv2' : v2.length = s.circuit.next_net_id ∧ bool_vals v2 := by
        by_cases hit : i1 = true
        · rw [if_pos hit] at heq2
          obtain ⟨_, hlen2, hv2⟩ := zd_run_levels_inv s.circuit s.logic_model s.levels
            fuel _ _ _ c1 false s.circuit.next_net_id (q2, v2, c2, i2) hf hq1 hlen1 hv1 heq2
          exact ⟨hlen2, hv2⟩
        · rw [if_neg hit] at heq2
          injection heq2 with heq2'
          rw [Prod.mk.injEq, Prod.mk.injEq, Prod.mk.injEq] at heq2'
          obtain ⟨-, h2, -⟩ := heq2'
          rw [← h2]
          exact ⟨hlen1, hv1⟩
      injection h with h'
      subst h'
      refine ⟨rfl, rfl, hv2'.1, hv2'.2, ?_⟩
      intro entry hentry
      rcases List.mem_append.mp hentry with h' | h'
      · exact hlog entry h'
      · rw [List.mem_singleton.mp h']
        exact bool_snapshot s.circuit.primary_outputs v2 hv2'.2
          (fun p hp => lt_of_lt_of_eq (hpo p hp) hv2'.1.symm)

theorem zd_run_vectors_inv (fuel : Nat) (vecs : List (List (Nat × Logic)))
    (s s' : ZeroDelaySimulator)
    (hw : WFCirc s.circuit) (hnum : s.num_nets = s.circuit.next_net_id)
    (hlen : s.net_values.length = s.circuit.next_net_id)
    (hv : bool_vals s.net_values) (hlog : bool_log s.output_log)
    (hvecs : ∀ vec ∈ vecs, bool_vec vec)
    (h : ZeroDelaySimulator.run_vectors fuel s vecs = some s') :
    bool_vals s'.net_values ∧ bool_log s'.output_log := by
  induction vecs generalizing s with
  | nil =>
    simp only [ZeroDelaySimulator.run_vectors] at h
    injection h with h'
    subst h'
    exact ⟨hv, hlog⟩
  | cons vec rest ih =>
    simp only [ZeroDelaySimulator.run_vectors] at h
    split at h
    · exact Option.noConfusion h
    · rename_i s1 hz heq
      obtain ⟨hc, hn, hl, hb, hlg⟩ := zd_simulate_vector_inv fuel s vec (s1, hz)
        hw hnum hlen hv hlog (hvecs vec (by simp)) heq
      exact ih s1 (by rw [hc]; exact hw) (by rw [hn, hc]; exact hnum)
        (by rw [hc]; exact hl) hb hlg
        (fun v hv' => hvecs v (by simp [hv'])) h

/-! ### Threaded 2-valued closure -/

theorem th_push_gates_inv (circ : Circuit) (net n : Nat) (stack : List ThTask)
    (hf : ∀ p ∈ circ.fanout, ∀ g ∈ p.2, WFGate g n)
    (hs : ∀ t ∈ stack, th_task_inv n t) :
    ∀ t ∈ (fanout_get circ.fanout net).foldl (fun s g => ThTask.gateTask g :: s) stack,
      th_task_inv n t := by
  refine foldl_invariant (fun st : List ThTask => ∀ t ∈ st, th_task_inv n t)
    _ (fanout_get circ.fanout net) stack hs ?_
  intro b a ha hb t ht
  rcases List.mem_cons.mp ht with rfl | ht'
  · exact fanout_get_wf circ.fanout net n hf a ha
  · exact hb t ht'

theorem th_loop_inv (circ : Circuit) (m : LogicModel) (fuel : Nat)
    (estack gstack : List ThTask) (values : List Logic) (counts : List Nat)
    (sc : Nat) (n : Nat) (r : List Logic × List Nat × Nat)
    (hf : ∀ p ∈ circ.fanout, ∀ g ∈ p.2, WFGate g n)
    (he : ∀ t ∈ estack, th_task_inv n t) (hgs : ∀ t ∈ gstack, th_task_inv n t)
    (hlen : values.length = n) (hv : bool_vals values)
    (h : th_loop circ m fuel estack gstack values counts sc = some r) :
    r.1.length = n ∧ bool_vals r.1 := by
  induction fuel generalizing estack gstack values counts sc with
  | zero => cases h
  | succ fuel ih =>
    simp only [th_loop] at h
    split at h
    · injection h with h'
      subst h'
      exact ⟨hlen, hv⟩
    · rename_i net value rest
      have hval : bool_val value := he (ThTask.netEvent net value) (by simp)
      have hrest : ∀ t ∈ rest, th_task_inv n t := fun t ht => he t (by simp [ht])
      have hlen' : (if value ≠ values.getD net .X then
          (values.set net value, counts.set net (counts.getD net 0 + 1))
          else (values, counts)).1.length = n := by
        by_cases hc : value ≠ values.getD net .X
        · rw [if_pos hc]; simpa using hlen
        · rw [if_neg hc]; exact hlen
      have hv' : bool_vals (if value ≠ values.getD net .X then
          (values.set net value, counts.set net (counts.getD net 0 + 1))
          else (values, counts)).1 := by
        by_cases hc : value ≠ values.getD net .X
        · rw [if_pos hc]; exact bool_vals_set values net value hv hval
        · rw [if_neg hc]; exact hv
      exact ih _ _ _ _ _ hrest (th_push_gates_inv circ net n gstack hf hgs) hlen' hv' h
    · rename_i g rest
      have hgw : WFGate g values.length := by
        rw [hlen]
        exact he (ThTask.gateTask g) (by simp)
      have hrest : ∀ t ∈ rest, th_task_inv n t := fun t ht => he t (by simp [ht])
      refine ih _ _ _ _ _ ?_ hgs hlen hv h
      intro t ht
      by_cases hc : g.simulate values m ≠ values.getD g.output .X
      · rw [if_pos hc] at ht
        rcases List.mem_cons.mp ht with rfl | ht'
        · exact bool_val_simulate g values m hgw hv
        · exact hrest t ht'
      · rw [if_neg hc] at ht
        exact hrest t ht
    · rename_i g rest
      have hgw : WFGate g values.length := by
        rw [hlen]
        exact hgs (ThTask.gateTask g) (by simp)
      have hrest : ∀ t ∈ rest, th_task_inv n t := fun t ht => hgs t (by simp [ht])
      refine ih _ _ _ _ _ ?_ hrest hlen hv h
      intro t ht
      by_cases hc : g.simulate values m ≠ values.getD g.output .X
      · rw [if_pos hc] at ht
        rw [List.mem_singleton.mp ht]
        exact bool_val_simulate g values m hgw hv
      · rw [if_neg hc] at ht
        cases ht
    · rename_i net value rest
      have hval : bool_val value := hgs (ThTask.netEvent net value) (by simp)
      have hrest : ∀ t ∈ rest, th_task_inv n t := fun t ht => hgs t (by simp [ht])
      have hlen' : (if value ≠ values.getD net .X then
          (values.set net value, counts.set net (counts.getD net 0 + 1))
          else (values, counts)).1.length = n := by
        by_cases hc : value ≠ values.getD net .X
        · rw [if_pos hc]; simpa using hlen
        · rw [if_neg hc]; exact hlen
      have hv' : bool_vals (if value ≠ values.getD net .X then
          (values.set net value, counts.set net (counts.getD net 0 + 1))
          else (values, counts)).1 := by
        by_cases hc : value ≠ values.getD net .X
        · rw [if_pos hc]; exact bool_vals_set values net value hv hval
        · rw [if_neg hc]; exact hv
      exact ih _ _ _ _ _ (fun t ht => absurd ht (List.not_mem_nil t))
        (th_push_gates_inv circ net n rest hf hrest) hlen' hv' h

theorem th_simulate_vector_inv (fuel : Nat) (s : ThreadedSimulator)
    (vec : List (Nat × Logic))
    (r : ThreadedSimulator × List (Nat × HazardKind) × List Nat)
    (hw : WFCirc s.circuit) (hnum : s.num_nets = s.circuit.next_net_id)
    (hlen : s.net_values.length = s.circuit.next_net_id)
    (hv : bool_vals s.net_values)
    (hes : ∀ t ∈ s.event_stack, th_task_inv s.circuit.next_net_id t)
    (hgs : ∀ t ∈ s.gate_stack, th_task_inv s.circuit.next_net_id t)
    (hlog : bool_log s.output_log) (hvec : bool_vec vec)
    (h : ThreadedSimulator.simulate_vector fuel s vec = some r) :
    r.1.circuit = s.circuit ∧ r.1.num_nets = s.num_nets ∧
    r.1.net_values.length = s.circuit.next_net_id ∧
    bool_vals r.1.net_values ∧ r.1.event_stack = [] ∧ r.1.gate_stack = [] ∧
    bool_log r.1.output_log := by
  obtain ⟨hg, hf, hpi, hpo⟩ := hw
  have hest : ∀ t ∈ s.circuit.primary_inputs.foldl (fun st net =>
      if vec_get vec net (s.net_values.getD net .X) ≠ s.net_values.getD net .X then
        ThTask.netEvent net (vec_get vec net (s.net_values.getD net .X)) :: st
      else st) s.event_stack, th_task_inv s.circuit.next_net_id t := by
    refine foldl_invariant
      (fun st : List ThTask => ∀ t ∈ st, th_task_inv s.circuit.next_net_id t)
      _ s.circuit.primary_inputs s.event_stack hes ?_
    intro b a ha hb t ht
    by_cases hc : vec_get vec a (s.net_values.getD a .X) ≠ s.net_values.getD a .X
    · rw [if_pos hc] at ht
      rcases List.mem_cons.mp ht with rfl | ht'
      · exact bool_val_vec_get vec a _ hvec
          (bool_vals_getD s.net_values a .X hv (by rw [hlen]; exact hpi a ha))
      · exact hb t ht'
    · rw [if_neg hc] at ht
      exact hb t ht
  simp only [ThreadedSimulator.simulate_vector] at h
  split at h
  · exact Option.noConfusion h
  · rename_i values counts sc heq
    obtain ⟨hlen', hv'⟩ := th_loop_inv s.circuit s.logic_model fuel _ _ _ _ 0
      s.circuit.next_net_id (values, counts, sc) hf hest hgs hlen hv heq
    injection h with h'
    subst h'
    refine ⟨rfl, rfl, hlen', hv', rfl, rfl, ?_⟩
    intro entry hentry
    rcases List.mem_append.mp hentry with h' | h'
    · exact hlog entry h'
    · rw [List.mem_singleton.mp h']
      exact bool_snapshot s.circuit.primary_outputs values hv'
        (fun p hp => lt_of_lt_of_eq (hpo p hp) hlen'.symm)

theorem th_run_vectors_inv (fuel : Nat) (vecs : List (List (Nat × Logic)))
    (s s' : ThreadedSimulator)
    (hw : WFCirc s.circuit) (hnum : s.num_nets = s.circuit.next_net_id)
    (hlen : s.net_values.length = s.circuit.next_net_id)
    (hv : bool_vals s.net_values)
    (hes : ∀ t ∈ s.event_stack, th_task_inv s.circuit.next_net_id t)
    (hgs : ∀ t ∈ s.gate_stack, th_task_inv s.circuit.next_net_id t)
    (hlog : bool_log s.output_log) (hvecs : ∀ vec ∈ vecs, bool_vec vec)
    (h : ThreadedSimulator.run_vectors fuel s vecs = some s') :
    bool_vals s'.net_values ∧ bool_log s'.output_log := by
  induction vecs generalizing s with
  | nil =>
    simp only [ThreadedSimulator.run_vectors] at h
    injection h with h'
    subst h'
    exact ⟨hv, hlog⟩
  | cons vec rest ih =>
    simp only [ThreadedSimulator.run_vectors] at h
    split at h
    · exact Option.noConfusion h
    · rename_i s1 hz counts heq
      obtain ⟨hc, hn, hl, hb, hse, hsg, hlg⟩ := th_simulate_vector_inv fuel s vec
        (s1, hz, counts) hw hnum hlen hv hes hgs hlog (hvecs vec (by simp)) heq
      exact ih s1 (by rw [hc]; exact hw) (by rw [hn, hc]; exact hnum)
        (by rw [hc]; exact hl) hb
        (by rw [hse]; intro t ht; cases ht)
        (by rw [hsg]; intro t ht; cases ht) hlg
        (fun v hv' => hvecs v (by simp [hv'])) h

/-- C10: for every simulator constructed with logic model `'2val'` on a
well-formed circuit, if every value supplied by every input vector across
any sequence of completed `simulate_vector` calls lies in `{0, 1}`, then
after each call every net value lies in `{0, 1}` and so does every value in
the output log — no `U` or `X` ever appears. -/
theorem C10_two_valued_closure (circ : Circuit) (fuel : Nat)
    (vecs : List (List (Nat × Logic))) (hw : WFCirc circ)
    (hv : ∀ vec ∈ vecs, bool_vec vec) :
    (∀ s', TwoListSimulator.run_vectors fuel (TwoListSimulator.init circ .twoVal) vecs
        = some s' → bool_vals s'.net_values ∧ bool_log s'.output_log) ∧
    (∀ s', SingleListEventSimulator.run_vectors fuel
        (SingleListEventSimulator.init circ .twoVal) vecs
        = some s' → bool_vals s'.net_values ∧ bool_log s'.output_log) ∧
    (∀ s', SingleListGateSimulator.run_vectors fuel
        (SingleListGateSimulator.init circ .twoVal) vecs
        = some s' → bool_vals s'.net_values ∧ bool_log s'.output_log) ∧
    (∀ s', ZeroDelaySimulator.run_vectors fuel (ZeroDelaySimulator.init circ .twoVal) vecs
        = some s' → bool_vals s'.net_values ∧ bool_log s'.output_log) ∧
    (∀ s', ThreadedSimulator.run_vectors fuel (ThreadedSimulator.init circ .twoVal) vecs
        = some s' → bool_vals s'.net_values ∧ bool_log s'.output_log) := by
  have hinit : bool_vals (init_net_values .twoVal circ.next_net_id) := by
    intro v hv'
    rw [mem_replicate_eq hv']
    exact Or.inl rfl
  have hzero : bool_vals (List.replicate circ.next_net_id Logic.zero) :=
    fun v hv' => Or.inl (mem_replicate_eq hv')
  have hnil : bool_log ([] : List (List (Nat × Logic))) :=
    fun entry h => absurd h (List.not_mem_nil entry)
  refine ⟨?_, ?_, ?_, ?_, ?_⟩
  · intro s' h
    exact tl_run_vectors_inv fuel vecs _ s' hw rfl
      (by simp [TwoListSimulator.init, init_net_values]) hinit hnil hv h
  · intro s' h
    exact sle_run_vectors_inv fuel vecs _ s' hw rfl
      (by simp [SingleListEventSimulator.init, init_net_values]) hinit hnil hv h
  · intro s' h
    exact slg_run_vectors_inv fuel vecs _ s' hw rfl
      (by simp [SingleListGateSimulator.init, init_net_values]) hinit hnil hv h
  · intro s' h
    exact zd_run_vectors_inv fuel vecs _ s' hw rfl
      (by simp [ZeroDelaySimulator.init]) hzero hnil hv h
  · intro s' h
    exact th_run_vectors_inv fuel vecs _ s' hw rfl
      (by simp [ThreadedSimulator.init, init_net_values]) hinit
      (fun t ht => absurd ht (List.not_mem_nil t))
      (fun t ht => absurd ht (List.not_mem_nil t)) hnil hv h

/-- Witness for `C10_two_valued_closure` at the concrete `andNotCirc` runs. -/
theorem C10_witness :
    (TwoListSimulator.run_vectors 20 (TwoListSimulator.init andNotCirc .twoVal)
        [andNotVec] = some tlAndNot.1) ∧
    (bool_vals tlAndNot.1.net_values ∧ bool_log tlAndNot.1.output_log) ∧
    (SingleListEventSimulator.run_vectors 20
        (SingleListEventSimulator.init andNotCirc .twoVal) [andNotVec]
        = some sleAndNot.1) ∧
    (bool_vals sleAndNot.1.net_values ∧ bool_log sleAndNot.1.output_log) ∧
    (SingleListGateSimulator.run_vectors 20
        (SingleListGateSimulator.init andNotCirc .twoVal) [andNotVec]
        = some slgAndNot.1) ∧
    (bool_vals slgAndNot.1.net_values ∧ bool_log slgAndNot.1.output_log) ∧
    (ZeroDelaySimulator.run_vectors 20 (ZeroDelaySimulator.init andNotCirc .twoVal)
        [andNotVec] = some zdAndNot.1) ∧
    (bool_vals zdAndNot.1.net_values ∧ bool_log zdAndNot.1.output_log) ∧
    (ThreadedSimulator.run_vectors 20 (ThreadedSimulator.init andNotCirc .twoVal)
        [andNotVec] = some thAndNot.1) ∧
    (bool_vals thAndNot.1.net_values ∧ bool_log thAndNot.1.output_log) := by
  have hc := C10_two_valued_closure andNotCirc 20 [andNotVec]
    (by unfold WFCirc WFGate; decide) (by unfold bool_vec bool_val; decide)
  have h1 : TwoListSimulator.run_vectors 20 (TwoListSimulator.init andNotCirc .twoVal)
      [andNotVec] = some tlAndNot.1 := rfl
  have h2 : SingleListEventSimulator.run_vectors 20
      (SingleListEventSimulator.init andNotCirc .twoVal) [andNotVec]
      = some sleAndNot.1 := rfl
  have h3 : SingleListGateSimulator.run_vectors 20
      (SingleListGateSimulator.init andNotCirc .twoVal) [andNotVec]
      = some slgAndNot.1 := rfl
  have h4 : ZeroDelaySimulator.run_vectors 20 (ZeroDelaySimulator.init andNotCirc .twoVal)
      [andNotVec] = some zdAndNot.1 := rfl
  have h5 : ThreadedSimulator.run_vectors 20 (ThreadedSimulator.init andNotCirc .twoVal)
      [andNotVec] = some thAndNot.1 := rfl
  exact ⟨h1, hc.1 tlAndNot.1 h1, h2, hc.2.1 sleAndNot.1 h2, h3, hc.2.2.1 slgAndNot.1 h3,
         h4, hc.2.2.2.1 zdAndNot.1 h4, h5, hc.2.2.2.2 thAndNot.1 h5⟩

end EventSim
